import Mathlib

/-!
Verification development for the exray run-orchestration bridge.

The Python source (`state/entries.py`, `workflows/argo.py`, `main.py`) is
shallowly embedded here.  JSON/YAML documents are modelled by the `JVal`
type, Python dicts by insertion-ordered association lists, and network
effects (Argo HTTP calls, MinIO presigning) by explicit oracles.  Functions
that write the registry file return the new document plus a `saved` flag,
and functions that issue network requests also return the list of requests
issued, so that claims about "no query is issued" or "retries exactly once"
are stated directly.
-/

/-- A JSON/YAML value, as produced by `json.load` / `yaml.load`. -/
inductive JVal where
  | null
  | bool (b : Bool)
  | num (n : Int)
  | str (s : String)
  | arr (xs : List JVal)
  | obj (fields : List (String × JVal))

/-- A Python dict with string keys, in insertion order. -/
abbrev Obj := List (String × JVal)

/-- `d.get(k)`: the value at the first occurrence of key `k`. -/
def dictGet (o : Obj) (k : String) : Option JVal :=
  match o with
  | [] => none
  | (k', v) :: rest => if k' = k then some v else dictGet rest k

/-- `d[k] = v`: replace the value at `k` in place, or append a new binding. -/
def dictSet (o : Obj) (k : String) (v : JVal) : Obj :=
  match o with
  | [] => [(k, v)]
  | (k', v') :: rest => if k' = k then (k, v) :: rest else (k', v') :: dictSet rest k v

/-- `d.pop(k, None)`: drop the binding for `k` if present. -/
def dictPop (o : Obj) (k : String) : Obj :=
  match o with
  | [] => []
  | (k', v) :: rest => if k' = k then dictPop rest k else (k', v) :: dictPop rest k

/-- `d.update(updates)`: shallow merge, left to right over `updates`. -/
def dictUpdate (o updates : Obj) : Obj :=
  updates.foldl (fun acc kv => dictSet acc kv.1 kv.2) o

/-- The key list of a dict, in insertion order. -/
def keys (o : Obj) : List String := o.map Prod.fst

/-- Python truthiness of a value. -/
def truthy : JVal → Bool
  | .null => false
  | .bool b => b
  | .num n => n != 0
  | .str s => !s.isEmpty
  | .arr xs => !xs.isEmpty
  | .obj o => !o.isEmpty

/-- Truthiness of a `d.get(k)` result (`None` when the key is missing). -/
def truthyOpt : Option JVal → Bool
  | none => false
  | some v => truthy v

/-- Python `str()` on scalars.  The claims' code paths only ever stringify
scalars; container reprs are not modelled. -/
def pyStr : JVal → String
  | .null => "None"
  | .bool true => "True"
  | .bool false => "False"
  | .num n => toString n
  | .str s => s
  | .arr _ => "<list>"
  | .obj _ => "<dict>"

/-- ASCII lowercasing of one character, as Python `str.lower` acts on the
ASCII phase strings compared by the source. -/
def lowerChar (c : Char) : Char :=
  if 'A' ≤ c ∧ c ≤ 'Z' then Char.ofNat (c.toNat + 32) else c

/-- ASCII `str.lower()`. -/
def pyLower (s : String) : String := String.mk (s.data.map lowerChar)

/-- Lexicographic order on character lists by code point, as Python
compares strings. -/
def charsLe : List Char → List Char → Bool
  | [], _ => true
  | _ :: _, [] => false
  | x :: xs, y :: ys => if x < y then true else if y < x then false else charsLe xs ys

/-- Python `a <= b` on strings. -/
def pyStrLe (a b : String) : Bool := charsLe a.data b.data

/-- The whitespace characters Python `str.strip()` removes. -/
def isPySpace (c : Char) : Bool :=
  (c == ' ') || (c == '\t') || (c == '\n') || (c == '\r') ||
    (c == '\x0b') || (c == '\x0c')

/-- Python `s.strip()`: drop leading and trailing whitespace. -/
def pyStrip (s : String) : String :=
  String.mk (((s.data.dropWhile isPySpace).reverse.dropWhile isPySpace).reverse)

/-- `(v or "").lower()` applied to a `d.get(k)` result: a falsy value maps
to `""`.  A truthy non-string would raise in the source (not modelled). -/
def lowerStr (v : Option JVal) : String :=
  match v with
  | some (.str s) => pyLower s
  | _ => ""

mutual

/-- Python `==` on JSON values (structural equality). -/
def jvalBeq : JVal → JVal → Bool
  | .null, .null => true
  | .bool a, .bool b => a == b
  | .num a, .num b => a == b
  | .str a, .str b => a == b
  | .arr xs, .arr ys => jvalBeqList xs ys
  | .obj xs, .obj ys => jvalBeqObj xs ys
  | _, _ => false

/-- `jvalBeq` on lists, elementwise. -/
def jvalBeqList : List JVal → List JVal → Bool
  | [], [] => true
  | x :: xs, y :: ys => jvalBeq x y && jvalBeqList xs ys
  | _, _ => false

/-- `jvalBeq` on dicts, bindingwise. -/
def jvalBeqObj : List (String × JVal) → List (String × JVal) → Bool
  | [], [] => true
  | (k, v) :: xs, (k2, v2) :: ys => k == k2 && jvalBeq v v2 && jvalBeqObj xs ys
  | _, _ => false

end

namespace Entries

/-!  Model of `state/entries.py`.  The persisted document is an `Obj`; a
missing data file is the empty document.  `_now()` is passed in as an
explicit `now` argument.  Registry operations return their result together
with the resulting on-disk document and a flag recording whether
`save_json` ran. -/

/-- One entry of `_normalize_runs`'s loop: wrap non-dict values, resolve
`run_id` from the `run_id` field, the legacy `runID` field, or the storage
key (first truthy wins), stringify it, and drop `runID`.  Returns the new
storage key and the normalized record. -/
def normalizeEntry (k : String) (v : JVal) : String × Obj :=
  let record : Obj := match v with
    | .obj o => o
    | _ => [("value", v)]
  let rawId : JVal :=
    let v1 := (dictGet record "run_id").getD .null
    if truthy v1 then v1
    else
      let v2 := (dictGet record "runID").getD .null
      if truthy v2 then v2 else .str k
  let rid := pyStr rawId
  (rid, dictPop (dictSet record "run_id" (.str rid)) "runID")

/-- `_normalize_runs`. -/
def normalize_runs (runs : Obj) : Obj :=
  runs.foldl
    (fun acc kv =>
      let e := normalizeEntry kv.1 kv.2
      dictSet acc e.1 (.obj e.2))
    []

/-- `_load_state`: read the document, default a missing or non-dict `runs`
mapping to `{}`, and normalize it. -/
def load_state (data : Obj) : Obj :=
  let runs : Obj := match dictGet data "runs" with
    | some (.obj o) => o
    | _ => []
  dictSet data "runs" (.obj (normalize_runs runs))

/-- The `runs` mapping of a loaded state (always an object after
`load_state`). -/
def getRuns (state : Obj) : Obj :=
  match dictGet state "runs" with
  | some (.obj o) => o
  | _ => []

/-- `_backfill_result_object`: synthesize `result_object` as
`"output/" + input_file_name` for llm/ctgan records that have a truthy
`parameters` field.  Returns the (possibly mutated) record and whether it
changed. -/
def backfill_result_object (run : Obj) : Obj × Bool :=
  if truthyOpt (dictGet run "result_object") || !truthyOpt (dictGet run "parameters") then
    (run, false)
  else
    let input_name := (dictGet run "input_file_name").getD .null
    let workflow := (dictGet run "workflow").getD .null
    if jvalBeq workflow (.str "llm") && truthy input_name then
      (dictSet run "result_object" (.str ("output/" ++ pyStr input_name)), true)
    else if jvalBeq workflow (.str "ctgan") && truthy input_name then
      (dictSet run "result_object" (.str ("output/" ++ pyStr input_name)), true)
    else
      (run, false)

/-- `list_runs`: load, backfill each record, save if anything changed.
Returns (records, on-disk document, saved flag). -/
def list_runs (data : Obj) : List JVal × Obj × Bool :=
  let state := load_state data
  let runs := getRuns state
  let processed : List ((String × JVal) × Bool) := runs.map fun kv =>
    match kv.2 with
    | .obj r =>
        let e := backfill_result_object r
        ((kv.1, JVal.obj e.1), e.2)
    | v => ((kv.1, v), false)
  let dirty := processed.any (·.2)
  let runs' := processed.map (·.1)
  let result := runs'.map (·.2)
  if dirty then (result, dictSet state "runs" (.obj runs'), true)
  else (result, data, false)

/-- `get_run`: load, look up, backfill (saving when the record changed).
Returns (record or `None`, on-disk document, saved flag). -/
def get_run (data : Obj) (run_id : String) : Option JVal × Obj × Bool :=
  let state := load_state data
  let runs := getRuns state
  match dictGet runs run_id with
  | none => (none, data, false)
  | some run =>
      if truthy run then
        match run with
        | .obj r =>
            let e := backfill_result_object r
            if e.2 then
              let state' := dictSet state "runs" (.obj (dictSet runs run_id (.obj e.1)))
              (some (.obj e.1), state', true)
            else (some (.obj r), data, false)
        | _ => (some run, data, false)
      else (some run, data, false)

/-- Registry error raised by `create_run_entry`. -/
inductive RegErr where
  | duplicateRun (run_id : String)

/-- `create_run_entry`: fail on an existing id, else stamp
`run_id`/`created_at`/`updated_at` over the record and save. -/
def create_run_entry (data : Obj) (now : String) (run_id : String) (record : Obj) :
    Except RegErr Obj × Obj × Bool :=
  let state := load_state data
  let runs := getRuns state
  if (dictGet runs run_id).isSome then
    (.error (.duplicateRun run_id), data, false)
  else
    let stored :=
      dictSet (dictSet (dictSet record "run_id" (.str run_id))
        "created_at" (.str now)) "updated_at" (.str now)
    let state' := dictSet state "runs" (.obj (dictSet runs run_id (.obj stored)))
    (.ok stored, state', true)

/-- `update_run_entry`: shallow-merge `updates` over the record, refresh
`updated_at`, backfill, save.  Returns `None` for an unknown id. -/
def update_run_entry (data : Obj) (now : String) (run_id : String) (updates : Obj) :
    Option Obj × Obj × Bool :=
  let state := load_state data
  let runs := getRuns state
  match dictGet runs run_id with
  | none => (none, data, false)
  | some (.obj r) =>
      let r2 := dictSet (dictUpdate r updates) "updated_at" (.str now)
      let r3 := (backfill_result_object r2).1
      let state' := dictSet state "runs" (.obj (dictSet runs run_id (.obj r3)))
      (some r3, state', true)
  | some _ => (none, data, false)
  -- a non-dict record would raise in the source; the normalizing loader
  -- only ever produces dict records, so this branch is unreachable

end Entries

namespace Argo

/-!  Model of `workflows/argo.py`.  HTTP GETs of a workflow document are an
oracle `gw : String → Except Unit (Option Obj)`: `.ok none` is the 404
case (`get_workflow` returns `None`), `.error ()` a transport/HTTP
exception.  Log requests are scripted by a `Trace`, consumed one response
per request, since successive requests for the same pod may answer
differently. -/

/-- `get_workflow_status`: `None` for a missing/falsy workflow, else the
five canonical status fields extracted from the document. -/
def get_workflow_status (gw : String → Except Unit (Option Obj)) (name : String) :
    Except Unit (Option Obj) :=
  match gw name with
  | .error e => .error e
  | .ok none => .ok none
  | .ok (some wf) =>
      if truthy (.obj wf) then
        let st : Obj := match dictGet wf "status" with
          | some (.obj st) => st
          | _ => []
          -- a truthy non-dict `status` would raise in the source (not modelled)
        .ok (some
          [("phase", (dictGet st "phase").getD .null),
           ("startedAt", (dictGet st "startedAt").getD .null),
           ("finishedAt", (dictGet st "finishedAt").getD .null),
           ("progress", (dictGet st "progress").getD .null),
           ("message", (dictGet st "message").getD .null)])
      else .ok none

/-- `get_output_artifacts`: the `status.outputs.artifacts` list of the
workflow document, `[]` when the workflow or the field is missing. -/
def get_output_artifacts (gw : String → Except Unit (Option Obj)) (name : String) :
    Except Unit (List JVal) :=
  match gw name with
  | .error e => .error e
  | .ok none => .ok []
  | .ok (some wf) =>
      if truthy (.obj wf) then
        let outputs : Obj := match dictGet wf "status" with
          | some (.obj st) =>
              match dictGet st "outputs" with
              | some (.obj o) => o
              | _ => []
              -- a truthy non-dict `outputs` would raise in the source (not modelled)
          | _ => []
        .ok (match dictGet outputs "artifacts" with
          | some (.arr xs) => xs
          | _ => [])
        -- a truthy non-list `artifacts` value flows through in the source
        -- and raises at its callers (not modelled)
      else .ok []

/-- One declared input parameter of the loop at `create_run` lines 48-51:
its in-spec `value` is overwritten with the stringified caller value
exactly when its `name` is a key of `parameters` bound to a non-`None`
value.  A missing or non-string name is never a key of the string-keyed
`parameters` mapping; a non-dict parameter raises in the source. -/
def fillParam (parameters : List (String × JVal)) (p : JVal) : Except Unit JVal :=
  match p with
  | .obj po =>
      match dictGet po "name" with
      | some (.str n) =>
          match dictGet parameters n with
          | some v =>
              if !jvalBeq v .null then .ok (.obj (dictSet po "value" (.str (pyStr v))))
              else .ok p
          | none => .ok p
      | _ => .ok p
  | _ => .error ()

/-- The parameter-filling stage of `create_run` (lines 46-51) for one
template.  The source mutates the declared parameter dicts in place, so a
template with no `inputs` key or no `parameters` list is left untouched;
a present `parameters` list has `fillParam` applied to each element and
is written back at its original position.  `.error ()` models the
exceptions the source raises on malformed template shapes. -/
def fillTemplateParams (parameters : List (String × JVal)) (t : JVal) : Except Unit JVal :=
  match t with
  | .obj tobj =>
      match dictGet tobj "inputs" with
      | none => .ok t
      | some (.obj io) =>
          match dictGet io "parameters" with
          | none => .ok t
          | some (.arr xs) =>
              match xs.mapM (fillParam parameters) with
              | .error e => .error e
              | .ok xs' =>
                  .ok (.obj (dictSet tobj "inputs" (.obj (dictSet io "parameters" (.arr xs')))))
          | some _ => .error ()
          -- iterating a truthy non-list `parameters` value raises at the
          -- first element access in the source (not modelled further)
      | some _ => .error ()
  | _ => .error ()

/-- Shape check for one declared parameter (a dict). -/
def paramWF : JVal → Bool
  | .obj _ => true
  | _ => false

/-- Shape check for one template as traversed by the filling loop. -/
def templateWF : JVal → Bool
  | .obj tobj =>
      match dictGet tobj "inputs" with
      | none => true
      | some (.obj io) =>
          match dictGet io "parameters" with
          | none => true
          | some (.arr xs) => xs.all paramWF
          | some _ => false
      | some _ => false
  | _ => false

/-- Shape check for a template list. -/
def templatesWF (ts : List JVal) : Bool := ts.all templateWF

/-- The declared name of one parameter entry, if it is a dict with a
string `name`. -/
def paramDeclaredName (p : JVal) : List String :=
  match p with
  | .obj po =>
      match dictGet po "name" with
      | some (.str n) => [n]
      | _ => []
  | _ => []

/-- Every parameter name declared by one template's input parameters. -/
def templateDeclaredNames (t : JVal) : List String :=
  match t with
  | .obj tobj =>
      match dictGet tobj "inputs" with
      | some (.obj io) =>
          match dictGet io "parameters" with
          | some (.arr xs) => xs.foldr (fun p acc => paramDeclaredName p ++ acc) []
          | _ => []
      | _ => []
  | _ => []

/-- Every parameter name declared by any step of any template. -/
def declaredNames (templates : List JVal) : List String :=
  templates.foldr (fun t acc => templateDeclaredNames t ++ acc) []

/-- `create_run`'s parameter loop over `workflow_spec["spec"]["templates"]`:
skipped entirely when the caller-supplied mapping is falsy (empty). -/
def fill_parameters (parameters : List (String × JVal)) (templates : List JVal) :
    Except Unit (List JVal) :=
  if parameters.isEmpty then .ok templates
  else templates.mapM (fillTemplateParams parameters)

/-- Failure of one log HTTP request: an HTTPError with an optional
response status, or any other exception with its message. -/
inductive FetchErr where
  | httpError (status : Option Nat)
  | otherError (msg : String)

/-- Scripted responses for successive log HTTP requests, consumed in
order. -/
abbrev Trace := List (Except FetchErr String)

/-- One log request issued to the Argo server: the `podName` parameter (if
any) and the `logOptions.container` parameter. -/
abbrev FetchCall := Option String × String

/-- Consume one scripted response.  An exhausted script answers with a
transport error. -/
def takeResponse (tr : Trace) : Except FetchErr String × Trace :=
  match tr with
  | [] => (.error (.otherError "trace exhausted"), [])
  | r :: rest => (r, rest)

/-- The request loop of `_fetch_logs_from_argo`: one request per container
name, returning the first successful response; if all requests fail the
last error is re-raised.  Also returns the remaining script and the calls
made. -/
def fetchLoop (tr : Trace) (pod : Option String) (cs : List String)
    (lastErr : Option FetchErr) : Except FetchErr String × Trace × List FetchCall :=
  match cs with
  | [] =>
      match lastErr with
      | some e => (.error e, tr, [])
      | none => (.ok "", tr, [])
  | c :: rest =>
      let r := takeResponse tr
      match r.1 with
      | .ok t => (.ok t, r.2, [(pod, c)])
      | .error e =>
          let out := fetchLoop r.2 pod rest (some e)
          (out.1, out.2.1, (pod, c) :: out.2.2)

/-- `_fetch_logs_from_argo`: default container list `["main"]` (also used
when a falsy empty list is passed). -/
def fetch_logs_from_argo (tr : Trace) (pod : Option String)
    (containers : Option (List String)) : Except FetchErr String × Trace × List FetchCall :=
  let cs := match containers with
    | some l => if l.isEmpty then ["main"] else l
    | none => ["main"]
  fetchLoop tr pod cs none

/-- The placeholder body emitted when fetching one pod's logs raises
(lines 194-198). -/
def failBody (pod : String) : FetchErr → String
  | .httpError (some s) => "Failed to fetch logs for pod " ++ pod ++ " (HTTP " ++ toString s ++ ")."
  | .httpError none => "Failed to fetch logs for pod " ++ pod ++ " (HTTP unknown)."
  | .otherError msg => "Failed to fetch logs for pod " ++ pod ++ ": " ++ msg

/-- The per-node body of `get_workflow_logs` (lines 180-198): request the
`main` container; on a successful but whitespace-only response retry with
`["wait", "main"]`; exceptions from either request become a failure
placeholder; a kept text that trims to empty renders as the literal
placeholder. -/
def nodeBody (tr : Trace) (pod : String) : String × Trace × List FetchCall :=
  let r1 := fetch_logs_from_argo tr (some pod) none
  match r1.1 with
  | .error e => (failBody pod e, r1.2.1, r1.2.2)
  | .ok t =>
      if pyStrip t = "" then
        let r2 := fetch_logs_from_argo r1.2.1 (some pod) (some ["wait", "main"])
        match r2.1 with
        | .error e => (failBody pod e, r2.2.1, r1.2.2 ++ r2.2.2)
        | .ok t2 =>
            let body := if pyStrip t2 = "" then "(no log output yet)" else pyStrip t2
            (body, r2.2.1, r1.2.2 ++ r2.2.2)
      else (pyStrip t, r1.2.1, r1.2.2)

/-- A pod node as carried by `_extract_pod_nodes` before the sort key is
dropped: (startedAt-or-empty, displayName, podName, phase). -/
abbrev PodEntry := String × String × String × String

/-- The unsorted pod entries of `_extract_pod_nodes`: nodes with a truthy
`podName`, carrying display name (falling back to `name` then `podName`),
phase (default `"Unknown"`), and start time (falsy becomes `""`). -/
def podEntries (nodeVals : List JVal) : List PodEntry :=
  nodeVals.foldr
    (fun node acc =>
      match node with
      | .obj n =>
          let podName := (dictGet n "podName").getD .null
          if truthy podName then
            let displayName :=
              if truthyOpt (dictGet n "displayName") then (dictGet n "displayName").getD .null
              else if truthyOpt (dictGet n "name") then (dictGet n "name").getD .null
              else podName
            let phase := (dictGet n "phase").getD (.str "Unknown")
            let start := (dictGet n "startedAt").getD .null
            let startKey := if truthy start then pyStr start else ""
            (startKey, pyStr displayName, pyStr podName, pyStr phase) :: acc
          else acc
      | _ => acc)
      -- a non-dict node value would raise in the source (not modelled)
    []

/-- The node values of `workflow["status"]["nodes"]` in document order. -/
def nodeValues (wf : Obj) : List JVal :=
  match dictGet wf "status" with
  | some (.obj st) =>
      match dictGet st "nodes" with
      | some (.obj ns) => ns.map (·.2)
      | _ => []
      -- a truthy non-dict `nodes` would raise in the source (not modelled)
  | _ => []

/-- The comparison `pod_entries.sort` uses: Python `<=` on the start-time
key `item[0]`. -/
def podLe (a b : PodEntry) : Bool := pyStrLe a.1 b.1

/-- The stable ascending sort of `pod_entries.sort(key=lambda i: i[0])`
(Python `list.sort` is stable and ascending; any stable ascending sort is
extensionally the same function). -/
def sortPodEntries (es : List PodEntry) : List PodEntry :=
  List.insertionSort (fun a b => podLe a b = true) es

/-- `_extract_pod_nodes`: pod entries sorted by start time, key dropped. -/
def extract_pod_nodes (wf : Obj) : List (String × String × String) :=
  (sortPodEntries (podEntries (nodeValues wf))).map (·.2)

/-- One node's labeled section (header plus body). -/
def nodeSection (tr : Trace) (node : String × String × String) : String × Trace × List FetchCall :=
  let b := nodeBody tr node.2.1
  ("=== " ++ node.1 ++ " [" ++ node.2.1 ++ "] (phase: " ++ node.2.2 ++ ") ===\n" ++ b.1,
   b.2.1, b.2.2)

/-- The per-node section loop of `get_workflow_logs`, threading the
response script. -/
def nodeSections (tr : Trace) (nodes : List (String × String × String)) :
    List String × Trace × List FetchCall :=
  match nodes with
  | [] => ([], tr, [])
  | n :: rest =>
      let s := nodeSection tr n
      let out := nodeSections s.2.1 rest
      (s.1 :: out.1, out.2.1, s.2.2 ++ out.2.2)

/-- `get_workflow_logs` for a workflow document already fetched: aggregate
logs when no pod node exists, else the per-node sections followed by a
best-effort aggregate section, joined by blank lines. -/
def get_workflow_logs (tr : Trace) (wf : Obj) : Except FetchErr String × Trace × List FetchCall :=
  let nodes := extract_pod_nodes wf
  if nodes.isEmpty then
    let r := fetch_logs_from_argo tr none none
    (r.1, r.2.1, r.2.2)
  else
    let s := nodeSections tr nodes
    let agg := fetch_logs_from_argo s.2.1 none none
    let sections := match agg.1 with
      | .ok t => if pyStrip t = "" then s.1 else s.1 ++ ["=== Aggregated workflow logs ===\n" ++ pyStrip t]
      | .error _ => s.1
    (.ok (String.intercalate "\n\n" sections), agg.2.1, s.2.2 ++ agg.2.2)

end Argo

namespace Api

/-!  Model of the orchestration endpoints of `main.py`.  `gw` is the
`argo.get_workflow` oracle, `presign` the `argo.generate_presigned_url`
oracle whose `.error ()` is an `S3Error`.  Each endpoint returns its
result, the resulting on-disk registry document, and the list of requests
issued to the corresponding external service. -/

/-- An `HTTPException(status, detail)` raised by an endpoint, or an
exception propagating uncaught out of the handler. -/
inductive ApiError where
  | httpExc (status : Nat) (detail : String)
  | uncaught
deriving DecidableEq, Repr

/-- The lowercased stored phase `(run.get("status", {}).get("phase") or
"").lower()` used by the list-refresh loop (line 376). -/
def lowerPhase (r : Obj) : String :=
  match dictGet r "status" with
  | some (.obj st) => lowerStr (dictGet st "phase")
  | none => ""
  | some _ => ""
  -- a truthy non-dict `status` would raise in the source (not modelled)

/-- The terminal-phase set of the list-refresh loop (line 368). -/
def terminalPhases : List String := ["succeeded", "failed", "error", "skipped"]

/-- Membership in the terminal set. -/
def isTerminal (p : String) : Bool := terminalPhases.contains p

/-- The body of the refresh loop of the `GET /runs` endpoint (lines
370-390) for one listed record: skip records with no engine name, skip
terminal records, otherwise query the engine and merge a truthy fresh
status into the registry.  Returns the record to report, the resulting
document, and the engine names queried. -/
def refreshRun (gw : String → Except Unit (Option Obj)) (now : String)
    (disk : Obj) (run : JVal) : JVal × Obj × List String :=
  match run with
  | .obj r =>
      let argoName := (dictGet r "argo_name").getD .null
      if !truthy argoName then (run, disk, [])
      else
        let name := pyStr argoName
        if isTerminal (lowerPhase r) then (run, disk, [])
        else
          match Argo.get_workflow_status gw name with
          | .error _ => (run, disk, [name])
          | .ok none => (run, disk, [name])
          | .ok (some st) =>
              if truthy (.obj st) then
                match dictGet r "run_id" with
                | some (.str rid) =>
                    let u := Entries.update_run_entry disk now rid [("status", .obj st)]
                    (((u.1.map JVal.obj).getD run), u.2.1, [name])
                | _ => (run, disk, [name])
                -- a record without a string `run_id` cannot leave the
                -- normalizing loader; `run["run_id"]` would raise there
              else (run, disk, [name])
  | _ => (run, disk, [])
  -- a non-dict record cannot leave the normalizing loader

/-- `GET /runs`: list the registry; when `refresh` is set, run
`refreshRun` over each listed record in order, threading the document. -/
def api_list_runs (gw : String → Except Unit (Option Obj)) (now : String)
    (data : Obj) (refresh : Bool) : List JVal × Obj × List String :=
  let l := Entries.list_runs data
  if !refresh then (l.1, l.2.1, [])
  else
    let out := l.1.foldl
      (fun (acc : List JVal × Obj × List String) run =>
        let s := refreshRun gw now acc.2.1 run
        (acc.1 ++ [s.1], s.2.1, acc.2.2 ++ s.2.2))
      ([], l.2.1, [])
    out

/-- `GET /runs/run_id`: fetch one record; when `refresh` is set and the
record has an engine name, query the engine unconditionally (there is no
terminal-phase check here) and merge a truthy fresh status. -/
def api_get_run (gw : String → Except Unit (Option Obj)) (now : String)
    (data : Obj) (run_id : String) (refresh : Bool) :
    Except ApiError JVal × Obj × List String :=
  let g := Entries.get_run data run_id
  match g.1 with
  | none => (.error (.httpExc 404 "Run not found"), g.2.1, [])
  | some run =>
      if !truthy run then (.error (.httpExc 404 "Run not found"), g.2.1, [])
      else if !refresh then (.ok run, g.2.1, [])
      else
        match run with
        | .obj r =>
            let argoName := (dictGet r "argo_name").getD .null
            if !truthy argoName then (.ok run, g.2.1, [])
            else
              let name := pyStr argoName
              match Argo.get_workflow_status gw name with
              | .error _ => (.ok run, g.2.1, [name])
              | .ok none => (.ok run, g.2.1, [name])
              | .ok (some st) =>
                  if truthy (.obj st) then
                    let u := Entries.update_run_entry g.2.1 now run_id [("status", .obj st)]
                    (.ok ((u.1.map JVal.obj).getD run), u.2.1, [name])
                  else (.ok run, g.2.1, [name])
        | _ => (.error .uncaught, g.2.1, [])
        -- a non-dict record cannot leave the normalizing loader

/-- The status gate of `GET /runs/run_id/result` (lines 425-437): when the
run has an engine name, query the engine; a truthy status is merged into
the registry and then gates on its lowercased phase: a non-empty phase
outside `{succeeded, skipped, completed}` raises 409.  Engine failures are
swallowed. -/
def resultStatusGate (gw : String → Except Unit (Option Obj)) (now : String)
    (disk : Obj) (run_id : String) (r : Obj) : Obj × Option ApiError :=
  let argoName := (dictGet r "argo_name").getD .null
  if !truthy argoName then (disk, none)
  else
    match Argo.get_workflow_status gw (pyStr argoName) with
    | .error _ => (disk, none)
    | .ok none => (disk, none)
    | .ok (some st) =>
        if truthy (.obj st) then
          let u := Entries.update_run_entry disk now run_id [("status", .obj st)]
          let ph := lowerStr (dictGet st "phase")
          if ph != "" && !(["succeeded", "skipped", "completed"].contains ph) then
            (u.2.1, some (.httpExc 409 "Run is not complete yet"))
          else (u.2.1, none)
        else (disk, none)

/-- `_extract_result_key_from_artifacts`: the first truthy `s3.key` of an
artifact whose `s3` entry is a dict. -/
def extract_result_key : List JVal → Option JVal
  | [] => none
  | a :: rest =>
      let s3 := match a with
        | .obj ao => dictGet ao "s3"
        | _ => none
        -- a non-dict artifact would raise in the source (not modelled)
      match s3 with
      | some (.obj m) =>
          match dictGet m "key" with
          | some key => if truthy key then some key else extract_result_key rest
          | none => extract_result_key rest
      | _ => extract_result_key rest

/-- The result-key resolution of `GET /runs/run_id/result` (lines
439-444): a falsy stored `result_object` is re-resolved from the latest
workflow document's output artifacts when the run has an engine name, and
a found key is persisted.  An artifacts-fetch exception propagates
uncaught. -/
def resolveObjectName (gw : String → Except Unit (Option Obj)) (now : String)
    (disk : Obj) (run_id : String) (r : Obj) : Except ApiError (JVal × Obj) :=
  let argoName := (dictGet r "argo_name").getD .null
  let object0 := (dictGet r "result_object").getD .null
  if !truthy object0 && truthy argoName then
    match Argo.get_output_artifacts gw (pyStr argoName) with
    | .error _ => .error .uncaught
    | .ok arts =>
        match extract_result_key arts with
        | some k =>
            let u := Entries.update_run_entry disk now run_id [("result_object", k)]
            .ok (k, u.2.1)
        | none => .ok (object0, disk)
  else .ok (object0, disk)

/-- The presign step of `GET /runs/run_id/result` (lines 449-464): presign
the resolved key; on an `S3Error`, re-resolve a fallback key from the
latest workflow document and, exactly when it is truthy and differs from
the failed key, persist it and retry once; any other outcome of the
handler surfaces 404 "Result not available".  Returns the response, the
resulting document, and the keys passed to `generate_presigned_url`. -/
def presignWithFallback (gw : String → Except Unit (Option Obj))
    (presign : JVal → Except Unit String) (now : String)
    (disk : Obj) (run_id : String) (argoName : JVal) (objectName : JVal) :
    Except ApiError (String × String) × Obj × List JVal :=
  match presign objectName with
  | .ok url => (.ok (run_id, url), disk, [objectName])
  | .error _ =>
      if truthy argoName then
        match Argo.get_output_artifacts gw (pyStr argoName) with
        | .error _ => (.error .uncaught, disk, [objectName])
        | .ok arts =>
            match extract_result_key arts with
            | some fk =>
                if truthy fk && !jvalBeq fk objectName then
                  let u := Entries.update_run_entry disk now run_id [("result_object", fk)]
                  match presign fk with
                  | .ok url => (.ok (run_id, url), u.2.1, [objectName, fk])
                  | .error _ =>
                      (.error (.httpExc 404 "Result not available"), u.2.1, [objectName, fk])
                else (.error (.httpExc 404 "Result not available"), disk, [objectName])
            | none => (.error (.httpExc 404 "Result not available"), disk, [objectName])
      else (.error (.httpExc 404 "Result not available"), disk, [objectName])

/-- `GET /runs/run_id/result`: load the run, gate on the freshly fetched
engine phase, resolve the result key, and presign it with the one-shot
fallback.  The success payload is the `(run_id, download_url)` pair. -/
def api_get_run_result (gw : String → Except Unit (Option Obj))
    (presign : JVal → Except Unit String) (now : String)
    (data : Obj) (run_id : String) :
    Except ApiError (String × String) × Obj × List JVal :=
  let g := Entries.get_run data run_id
  match g.1 with
  | none => (.error (.httpExc 404 "Run not found"), g.2.1, [])
  | some run =>
      if !truthy run then (.error (.httpExc 404 "Run not found"), g.2.1, [])
      else
        match run with
        | .obj r =>
            let gate := resultStatusGate gw now g.2.1 run_id r
            match gate.2 with
            | some e => (.error e, gate.1, [])
            | none =>
                match resolveObjectName gw now gate.1 run_id r with
                | .error e => (.error e, gate.1, [])
                | .ok (objectName, d3) =>
                    if !truthy objectName then
                      (.error (.httpExc 404 "Result location unknown"), d3, [])
                    else
                      presignWithFallback gw presign now d3 run_id
                        ((dictGet r "argo_name").getD .null) objectName
        | _ => (.error .uncaught, g.2.1, [])
        -- a non-dict record cannot leave the normalizing loader

end Api

/-! ## Supporting lemmas about dict operations -/

theorem dictGet_dictSet_self (o : Obj) (k : String) (v : JVal) :
    dictGet (dictSet o k v) k = some v := by
  induction o with
  | nil => simp [dictSet, dictGet]
  | cons kv rest ih =>
      obtain ⟨k0, v0⟩ := kv
      by_cases h : k0 = k
      · simp [dictSet, dictGet, h]
      · simp [dictSet, dictGet, h, ih]

theorem dictGet_dictSet_ne (o : Obj) {k k' : String} (v : JVal) (h : k' ≠ k) :
    dictGet (dictSet o k v) k' = dictGet o k' := by
  induction o with
  | nil => simp [dictSet, dictGet, Ne.symm h]
  | cons kv rest ih =>
      obtain ⟨k0, v0⟩ := kv
      by_cases h0 : k0 = k
      · subst h0; simp [dictSet, dictGet, Ne.symm h]
      · simp [dictSet, dictGet, h0, ih]

theorem dictSet_eq_of_get {o : Obj} {k : String} {v : JVal} (h : dictGet o k = some v) :
    dictSet o k v = o := by
  induction o with
  | nil => simp [dictGet] at h
  | cons kv rest ih =>
      obtain ⟨k0, v0⟩ := kv
      by_cases h0 : k0 = k
      · subst h0
        simp [dictGet] at h
        simp [dictSet, h]
      · simp [dictGet, h0] at h
        simp [dictSet, h0, ih h]

theorem dictPop_eq_of_get_none {o : Obj} {k : String} (h : dictGet o k = none) :
    dictPop o k = o := by
  induction o with
  | nil => simp [dictPop]
  | cons kv rest ih =>
      obtain ⟨k0, v0⟩ := kv
      by_cases h0 : k0 = k
      · simp [dictGet, h0] at h
      · simp [dictGet, h0] at h
        simp [dictPop, h0, ih h]

theorem dictGet_dictPop_self (o : Obj) (k : String) : dictGet (dictPop o k) k = none := by
  induction o with
  | nil => simp [dictPop, dictGet]
  | cons kv rest ih =>
      obtain ⟨k0, v0⟩ := kv
      by_cases h0 : k0 = k
      · simp [dictPop, h0, ih]
      · simp [dictPop, dictGet, h0, ih]

theorem dictGet_dictPop_ne (o : Obj) {k k' : String} (h : k' ≠ k) :
    dictGet (dictPop o k) k' = dictGet o k' := by
  induction o with
  | nil => simp [dictPop]
  | cons kv rest ih =>
      obtain ⟨k0, v0⟩ := kv
      by_cases h0 : k0 = k
      · subst h0
        simp [dictPop, dictGet, Ne.symm h, ih]
      · by_cases h1 : k0 = k'
        · subst h1
          simp [dictPop, dictGet, h]
        · simp [dictPop, dictGet, h0, h1, ih]

theorem dictGet_mem {o : Obj} {k : String} {v : JVal} (h : dictGet o k = some v) :
    (k, v) ∈ o := by
  induction o with
  | nil => simp [dictGet] at h
  | cons kv rest ih =>
      obtain ⟨k0, v0⟩ := kv
      by_cases h0 : k0 = k
      · subst h0
        simp [dictGet] at h
        subst h
        exact List.mem_cons_self _ _
      · simp [dictGet, h0] at h
        exact List.mem_cons_of_mem _ (ih h)

theorem mem_dictSet {o : Obj} {k : String} {v : JVal} {kv : String × JVal}
    (h : kv ∈ dictSet o k v) : kv ∈ o ∨ kv = (k, v) := by
  induction o with
  | nil => simp [dictSet] at h; simp [h]
  | cons kv0 rest ih =>
      obtain ⟨k0, v0⟩ := kv0
      by_cases h0 : k0 = k
      · simp [dictSet, h0] at h
        rcases h with h | h
        · right; simp [h]
        · left; exact List.mem_cons_of_mem _ h
      · simp [dictSet, h0] at h
        rcases h with h | h
        · left; simp [h]
        · rcases ih h with h' | h'
          · left; exact List.mem_cons_of_mem _ h'
          · right; exact h'

theorem mem_keys_iff_isSome {o : Obj} {k : String} :
    k ∈ keys o ↔ (dictGet o k).isSome := by
  induction o with
  | nil => simp [keys, dictGet]
  | cons kv rest ih =>
      obtain ⟨k0, v0⟩ := kv
      by_cases h0 : k0 = k
      · simp [keys, dictGet, h0]
      · rw [show keys ((k0, v0) :: rest) = k0 :: keys rest from rfl]
        simp only [List.mem_cons]
        rw [show dictGet ((k0, v0) :: rest) k = dictGet rest k by simp [dictGet, h0]]
        constructor
        · rintro (hk | hk)
          · exact absurd hk.symm h0
          · exact ih.1 hk
        · intro hk
          exact Or.inr (ih.2 hk)

theorem keys_dictSet_of_mem {o : Obj} {k : String} (v : JVal) (h : k ∈ keys o) :
    keys (dictSet o k v) = keys o := by
  induction o with
  | nil => simp [keys] at h
  | cons kv rest ih =>
      obtain ⟨k0, v0⟩ := kv
      by_cases h0 : k0 = k
      · simp [dictSet, keys, h0]
      · rw [show keys ((k0, v0) :: rest) = k0 :: keys rest from rfl] at h
        rcases List.mem_cons.1 h with hk | hk
        · exact absurd hk.symm h0
        · rw [show dictSet ((k0, v0) :: rest) k v = (k0, v0) :: dictSet rest k v by
            simp [dictSet, h0]]
          rw [show keys ((k0, v0) :: dictSet rest k v) = k0 :: keys (dictSet rest k v) from rfl]
          rw [ih hk]
          rfl

theorem dictSet_eq_append_of_not_mem {o : Obj} {k : String} (v : JVal) (h : k ∉ keys o) :
    dictSet o k v = o ++ [(k, v)] := by
  induction o with
  | nil => simp [dictSet]
  | cons kv rest ih =>
      obtain ⟨k0, v0⟩ := kv
      rw [show keys ((k0, v0) :: rest) = k0 :: keys rest from rfl] at h
      simp only [List.mem_cons, not_or] at h
      simp [dictSet, Ne.symm h.1, ih h.2]

theorem keys_nodup_dictSet {o : Obj} {k : String} (v : JVal) (h : (keys o).Nodup) :
    (keys (dictSet o k v)).Nodup := by
  by_cases hm : k ∈ keys o
  · rw [keys_dictSet_of_mem v hm]; exact h
  · rw [dictSet_eq_append_of_not_mem v hm]
    rw [show keys (o ++ [(k, v)]) = keys o ++ [k] by simp [keys]]
    exact List.Nodup.append h (List.nodup_singleton _) (by simpa using hm)

/-! ## Lemmas about the registry normalization pass -/

theorem normalizeEntry_inv (k : String) (v : JVal) :
    dictGet (Entries.normalizeEntry k v).2 "run_id" =
      some (.str (Entries.normalizeEntry k v).1) ∧
    dictGet (Entries.normalizeEntry k v).2 "runID" = none := by
  unfold Entries.normalizeEntry
  refine ⟨?_, ?_⟩
  · rw [dictGet_dictPop_ne _ (by decide)]
    exact dictGet_dictSet_self _ _ _
  · exact dictGet_dictPop_self _ _

theorem normalize_runs_foldl_inv (runs acc : Obj)
    (hacc : ∀ kv ∈ acc, ∃ r, kv.2 = JVal.obj r ∧
      dictGet r "run_id" = some (.str kv.1) ∧ dictGet r "runID" = none) :
    ∀ kv ∈ runs.foldl
      (fun acc kv =>
        let e := Entries.normalizeEntry kv.1 kv.2
        dictSet acc e.1 (.obj e.2)) acc,
      ∃ r, kv.2 = JVal.obj r ∧
        dictGet r "run_id" = some (.str kv.1) ∧ dictGet r "runID" = none := by
  induction runs generalizing acc with
  | nil => simpa using hacc
  | cons hd tl ih =>
      intro kv hkv
      refine ih _ ?_ kv hkv
      intro kv' hkv'
      rcases mem_dictSet hkv' with h | h
      · exact hacc kv' h
      · subst h
        exact ⟨(Entries.normalizeEntry hd.1 hd.2).2, rfl,
          (normalizeEntry_inv hd.1 hd.2).1, (normalizeEntry_inv hd.1 hd.2).2⟩

theorem normalize_runs_inv {runs : Obj} {kv : String × JVal}
    (h : kv ∈ Entries.normalize_runs runs) :
    ∃ r, kv.2 = JVal.obj r ∧
      dictGet r "run_id" = some (.str kv.1) ∧ dictGet r "runID" = none := by
  unfold Entries.normalize_runs at h
  exact normalize_runs_foldl_inv runs [] (by simp) kv h

theorem normalize_runs_foldl_nodup (runs acc : Obj) (hacc : (keys acc).Nodup) :
    (keys (runs.foldl
      (fun acc kv =>
        let e := Entries.normalizeEntry kv.1 kv.2
        dictSet acc e.1 (.obj e.2)) acc)).Nodup := by
  induction runs generalizing acc with
  | nil => simpa using hacc
  | cons hd tl ih => exact ih _ (keys_nodup_dictSet _ hacc)

theorem normalize_runs_keys_nodup (runs : Obj) :
    (keys (Entries.normalize_runs runs)).Nodup := by
  unfold Entries.normalize_runs
  exact normalize_runs_foldl_nodup runs [] (by simp [keys])

theorem normalizeEntry_fix {k : String} {r : Obj}
    (h1 : dictGet r "run_id" = some (.str k)) (h2 : dictGet r "runID" = none) :
    Entries.normalizeEntry k (.obj r) = (k, r) := by
  have hpop : dictPop (dictSet r "run_id" (.str k)) "runID" = r := by
    rw [dictSet_eq_of_get h1, dictPop_eq_of_get_none h2]
  unfold Entries.normalizeEntry
  by_cases hk : k = ""
  · subst hk
    simp [h1, h2, truthy, pyStr, hpop]
  · have hke : k.isEmpty = false := by
      rw [Bool.eq_false_iff]
      intro h
      exact hk ((String.isEmpty_iff k).mp h)
    simp [h1, truthy, hke, pyStr, hpop]

theorem normalize_runs_foldl_fix (l : Obj)
    (hinv : ∀ kv ∈ l, ∃ r, kv.2 = JVal.obj r ∧
      dictGet r "run_id" = some (.str kv.1) ∧ dictGet r "runID" = none)
    (hnd : (keys l).Nodup) :
    ∀ acc : Obj, (∀ x ∈ keys l, x ∉ keys acc) →
    l.foldl
      (fun acc kv =>
        let e := Entries.normalizeEntry kv.1 kv.2
        dictSet acc e.1 (.obj e.2)) acc = acc ++ l := by
  induction l with
  | nil => intro acc _; simp
  | cons hd tl ih =>
      intro acc hdisj
      obtain ⟨k, v⟩ := hd
      obtain ⟨r, hv, hrid, hRunID⟩ := hinv (k, v) (List.mem_cons_self _ _)
      simp only at hv
      subst hv
      have hkeys : keys ((k, JVal.obj r) :: tl) = k :: keys tl := rfl
      rw [hkeys] at hnd hdisj
      have hstep : (let e := Entries.normalizeEntry k (JVal.obj r)
          dictSet acc e.1 (JVal.obj e.2)) = dictSet acc k (JVal.obj r) := by
        rw [normalizeEntry_fix hrid hRunID]
      simp only [List.foldl_cons]
      rw [hstep, dictSet_eq_append_of_not_mem _ (hdisj k (List.mem_cons_self _ _))]
      rw [ih (fun kv hkv => hinv kv (List.mem_cons_of_mem _ hkv)) (List.nodup_cons.1 hnd).2
        (acc ++ [(k, JVal.obj r)]) ?_]
      · simp
      · intro x hx
        have hxk : x ≠ k := fun h => (List.nodup_cons.1 hnd).1 (h ▸ hx)
        have hxacc : x ∉ keys acc := hdisj x (List.mem_cons_of_mem _ hx)
        rw [show keys (acc ++ [(k, JVal.obj r)]) = keys acc ++ [k] by simp [keys]]
        simp [hxacc, hxk]

theorem normalize_runs_fix {l : Obj}
    (hinv : ∀ kv ∈ l, ∃ r, kv.2 = JVal.obj r ∧
      dictGet r "run_id" = some (.str kv.1) ∧ dictGet r "runID" = none)
    (hnd : (keys l).Nodup) : Entries.normalize_runs l = l := by
  unfold Entries.normalize_runs
  simpa using normalize_runs_foldl_fix l hinv hnd [] (by simp [keys])

/-! ## Lemmas about the result-object backfill -/

theorem backfill_get_ne {r : Obj} {k : String} (hk : k ≠ "result_object") :
    dictGet (Entries.backfill_result_object r).1 k = dictGet r k := by
  simp only [Entries.backfill_result_object]
  split
  · rfl
  · split
    · exact dictGet_dictSet_ne _ _ hk
    · split
      · exact dictGet_dictSet_ne _ _ hk
      · rfl

theorem backfill_noop_of_result {r : Obj}
    (h : truthyOpt (dictGet r "result_object") = true) :
    Entries.backfill_result_object r = (r, false) := by
  unfold Entries.backfill_result_object
  simp [h]

theorem backfill_of_missing {r : Obj} {s : String}
    (h2 : truthyOpt (dictGet r "result_object") = false)
    (h6 : truthyOpt (dictGet r "parameters") = true)
    (h3 : dictGet r "workflow" = some (.str "llm") ∨
      dictGet r "workflow" = some (.str "ctgan"))
    (h4 : dictGet r "input_file_name" = some (.str s))
    (h5 : s ≠ "") :
    Entries.backfill_result_object r =
      (dictSet r "result_object" (.str ("output/" ++ s)), true) := by
  unfold Entries.backfill_result_object
  rcases h3 with h3 | h3 <;>
    simp [h2, h6, h3, h4, truthy, jvalBeq, pyStr, String.isEmpty_iff, h5]

/-! ## Lemmas about loading and reading the registry -/

theorem truthyOpt_eq_getD (x : Option JVal) : truthyOpt x = truthy (x.getD JVal.null) := by
  cases x <;> rfl

theorem truthy_obj_of_get {r : Obj} {k : String} {v : JVal} (h : dictGet r k = some v) :
    truthy (JVal.obj r) = true := by
  cases r with
  | nil => simp [dictGet] at h
  | cons a l => simp [truthy]

theorem truthy_output_str (s : String) : truthy (.str ("output/" ++ s)) = true := by
  simp only [truthy, Bool.not_eq_true']
  rw [Bool.eq_false_iff]
  intro h
  have h2 := (String.isEmpty_iff _).mp h
  have h3 := congrArg String.length h2
  rw [String.length_append] at h3
  rw [show ("output/").length = 7 from rfl, show ("" : String).length = 0 from rfl] at h3
  omega

theorem backfill_cases (r : Obj) :
    Entries.backfill_result_object r = (r, false) ∨
    (Entries.backfill_result_object r).2 = true := by
  simp only [Entries.backfill_result_object]
  split
  · exact Or.inl rfl
  · split
    · exact Or.inr rfl
    · split
      · exact Or.inr rfl
      · exact Or.inl rfl

theorem getRuns_load_state (data : Obj) :
    Entries.getRuns (Entries.load_state data) =
      Entries.normalize_runs
        (match dictGet data "runs" with
         | some (.obj o) => o
         | _ => []) := by
  unfold Entries.load_state Entries.getRuns
  rw [dictGet_dictSet_self]

theorem getRuns_load_state_inv {data : Obj} {rid : String} {v : JVal}
    (h : dictGet (Entries.getRuns (Entries.load_state data)) rid = some v) :
    ∃ r, v = JVal.obj r ∧ dictGet r "run_id" = some (.str rid) ∧
      dictGet r "runID" = none := by
  rw [getRuns_load_state] at h
  exact normalize_runs_inv (dictGet_mem h)

theorem getRuns_load_state_nodup (data : Obj) :
    (keys (Entries.getRuns (Entries.load_state data))).Nodup := by
  rw [getRuns_load_state]
  exact normalize_runs_keys_nodup _

theorem get_run_some {data : Obj} {rid : String} {v : JVal}
    (hv : (Entries.get_run data rid).1 = some v) :
    ∃ run, dictGet (Entries.getRuns (Entries.load_state data)) rid = some run ∧
      (v = run ∨ ∃ r, run = JVal.obj r ∧
        v = JVal.obj (Entries.backfill_result_object r).1) := by
  simp only [Entries.get_run] at hv
  rcases hh : dictGet (Entries.getRuns (Entries.load_state data)) rid with _ | run
  · rw [hh] at hv
    simp at hv
  · rw [hh] at hv
    dsimp only at hv
    refine ⟨run, rfl, ?_⟩
    by_cases ht : truthy run = true
    · rw [if_pos ht] at hv
      cases run with
      | obj r =>
          dsimp only at hv
          by_cases hB : (Entries.backfill_result_object r).2 = true
          · rw [if_pos hB] at hv
            dsimp only at hv
            exact Or.inr ⟨r, rfl, (Option.some_injective _ hv).symm⟩
          · rw [if_neg hB] at hv
            dsimp only at hv
            exact Or.inr ⟨r, rfl, by
              rcases backfill_cases r with hc | hc
              · rw [hc, ← Option.some_injective _ hv]
              · exact absurd hc hB⟩
      | null => dsimp only at hv; exact Or.inl (Option.some_injective _ hv).symm
      | bool b => dsimp only at hv; exact Or.inl (Option.some_injective _ hv).symm
      | num n => dsimp only at hv; exact Or.inl (Option.some_injective _ hv).symm
      | str s => dsimp only at hv; exact Or.inl (Option.some_injective _ hv).symm
      | arr xs => dsimp only at hv; exact Or.inl (Option.some_injective _ hv).symm
    · rw [if_neg ht] at hv
      dsimp only at hv
      exact Or.inl (Option.some_injective _ hv).symm

theorem list_runs_mem {data : Obj} {v : JVal} (hv : v ∈ (Entries.list_runs data).1) :
    ∃ kv, kv ∈ Entries.getRuns (Entries.load_state data) ∧
      v = (match kv.2 with
           | JVal.obj r => JVal.obj (Entries.backfill_result_object r).1
           | w => w) := by
  simp only [Entries.list_runs] at hv
  split at hv <;>
  · simp only [List.map_map, List.mem_map] at hv
    obtain ⟨kv, hmem, hval⟩ := hv
    refine ⟨kv, hmem, ?_⟩
    rcases kv with ⟨k, w⟩
    cases w <;> simp_all

/-! ## Claim C8 -/

/-- C8: creating a run whose id is already present in the registry fails
with the duplicate-run error, leaves the persisted document (and hence the
existing record) unchanged, and performs no write (saved flag `false`). -/
theorem claim_C8_duplicate_create (data : Obj) (now run_id : String) (record : Obj)
    (h : (dictGet (Entries.getRuns (Entries.load_state data)) run_id).isSome = true) :
    Entries.create_run_entry data now run_id record =
      (.error (.duplicateRun run_id), data, false) := by
  simp only [Entries.create_run_entry, h, if_true]

/-- Witness for C8 at a one-run registry. -/
theorem claim_C8_witness :
    (dictGet (Entries.getRuns (Entries.load_state
        [("runs", JVal.obj [("r1", JVal.obj [("run_id", JVal.str "r1")])])])) "r1").isSome
      = true ∧
    Entries.create_run_entry
        [("runs", JVal.obj [("r1", JVal.obj [("run_id", JVal.str "r1")])])]
        "2024-01-01T00:00:00" "r1" [("workflow", JVal.str "llm")] =
      (.error (.duplicateRun "r1"),
       [("runs", JVal.obj [("r1", JVal.obj [("run_id", JVal.str "r1")])])], false) :=
  ⟨rfl, claim_C8_duplicate_create _ _ _ _ rfl⟩

/-! ## Claim C10 -/

/-- C10: after every registry load each stored entry is a dict record
keyed by a string equal to its own `run_id` field: non-dict stored values
are wrapped as value-records, a missing (or falsy) `run_id` is backfilled
from the legacy `runID` field or else from the storage key, the legacy
`runID` field is removed, and every operation that reads the registry
(single-record and list reads) observes records satisfying the invariant. -/
theorem claim_C10_normalization_invariant :
    (∀ (runs : Obj) (kv : String × JVal), kv ∈ Entries.normalize_runs runs →
      ∃ r, kv.2 = JVal.obj r ∧ dictGet r "run_id" = some (.str kv.1) ∧
        dictGet r "runID" = none) ∧
    (∀ (k : String) (v : JVal), (∀ o, v ≠ JVal.obj o) →
      Entries.normalizeEntry k v = (k, [("value", v), ("run_id", .str k)])) ∧
    (∀ (k : String) (o : Obj) (w : JVal),
      truthyOpt (dictGet o "run_id") = false → dictGet o "runID" = some w →
      truthy w = true →
      Entries.normalizeEntry k (.obj o) =
        (pyStr w, dictPop (dictSet o "run_id" (.str (pyStr w))) "runID")) ∧
    (∀ (k : String) (o : Obj),
      truthyOpt (dictGet o "run_id") = false → truthyOpt (dictGet o "runID") = false →
      Entries.normalizeEntry k (.obj o) =
        (k, dictPop (dictSet o "run_id" (.str k)) "runID")) ∧
    (∀ (data : Obj) (rid : String) (v : JVal),
      (Entries.get_run data rid).1 = some v →
      ∃ r, v = JVal.obj r ∧ dictGet r "run_id" = some (.str rid) ∧
        dictGet r "runID" = none) ∧
    (∀ (data : Obj) (v : JVal), v ∈ (Entries.list_runs data).1 →
      ∃ r rid, v = JVal.obj r ∧ dictGet r "run_id" = some (.str rid) ∧
        dictGet r "runID" = none) := by
  refine ⟨?_, ?_, ?_, ?_, ?_, ?_⟩
  · intro runs kv h
    exact normalize_runs_inv h
  · intro k v h
    cases v with
    | obj o => exact absurd rfl (h o)
    | null => rfl
    | bool b => rfl
    | num n => rfl
    | str s => rfl
    | arr xs => rfl
  · intro k o w h1 h2 h3
    unfold Entries.normalizeEntry
    rw [truthyOpt_eq_getD] at h1
    simp only [h1, Bool.false_eq_true, if_false, h2, Option.getD_some, h3, if_true]
  · intro k o h1 h2
    unfold Entries.normalizeEntry
    rw [truthyOpt_eq_getD] at h1 h2
    simp only [h1, h2, Bool.false_eq_true, if_false]
    rfl
  · intro data rid v hv
    obtain ⟨run, hrun, hcase⟩ := get_run_some hv
    obtain ⟨r0, hv0, hrid0, hRunID0⟩ := getRuns_load_state_inv hrun
    subst hv0
    rcases hcase with h | ⟨r, hr, hv2⟩
    · exact ⟨r0, h, hrid0, hRunID0⟩
    · injection hr with hr
      subst hr
      refine ⟨(Entries.backfill_result_object r0).1, hv2, ?_, ?_⟩
      · rw [backfill_get_ne (by decide)]
        exact hrid0
      · rw [backfill_get_ne (by decide)]
        exact hRunID0
  · intro data v hv
    obtain ⟨kv, hmem, hval⟩ := list_runs_mem hv
    have hinv : ∃ r, kv.2 = JVal.obj r ∧ dictGet r "run_id" = some (.str kv.1) ∧
        dictGet r "runID" = none := by
      rw [getRuns_load_state] at hmem
      exact normalize_runs_inv hmem
    obtain ⟨r, hr, hrid, hRunID⟩ := hinv
    rw [hr] at hval
    refine ⟨(Entries.backfill_result_object r).1, kv.1, hval, ?_, ?_⟩
    · rw [backfill_get_ne (by decide)]
      exact hrid
    · rw [backfill_get_ne (by decide)]
      exact hRunID

/-- Witness for C10: a legacy non-dict value is wrapped, and a legacy
`runID`-keyed record is folded into `run_id`. -/
theorem claim_C10_witness :
    Entries.normalizeEntry "k1" (.str "legacy") =
      ("k1", [("value", JVal.str "legacy"), ("run_id", JVal.str "k1")]) ∧
    Entries.normalizeEntry "k2" (.obj [("runID", JVal.str "77")]) =
      ("77", [("run_id", JVal.str "77")]) :=
  ⟨claim_C10_normalization_invariant.2.1 "k1" (.str "legacy") (fun _ h => JVal.noConfusion h),
   claim_C10_normalization_invariant.2.2.1 "k2" [("runID", JVal.str "77")] (.str "77")
     rfl rfl rfl⟩

/-! ## Claim C3 -/

/-- C3 counterexample: a stored record with `workflow="llm"`, a non-empty
`input_file_name`, and no `result_object`, but also no `parameters` field.
The claim as stated promises `result_object = "output/x.csv"` on read, yet
the read returns the record with `result_object` still absent and performs
no mutation: the backfill additionally requires a truthy `parameters`
field. -/
theorem claim_C3_counterexample :
    Entries.get_run
        [("runs", JVal.obj [("r1", JVal.obj
          [("run_id", JVal.str "r1"), ("workflow", JVal.str "llm"),
           ("input_file_name", JVal.str "x.csv")])])] "r1" =
      (some (JVal.obj
        [("run_id", JVal.str "r1"), ("workflow", JVal.str "llm"),
         ("input_file_name", JVal.str "x.csv")]),
       [("runs", JVal.obj [("r1", JVal.obj
          [("run_id", JVal.str "r1"), ("workflow", JVal.str "llm"),
           ("input_file_name", JVal.str "x.csv")])])], false) ∧
    dictGet
      [("run_id", JVal.str "r1"), ("workflow", JVal.str "llm"),
       ("input_file_name", JVal.str "x.csv")] "result_object" = none :=
  ⟨rfl, rfl⟩

/-- C3 (amended): for a stored record that is missing `result_object`, has
workflow kind llm or ctgan, a non-empty string `input_file_name`, and
additionally a truthy `parameters` field, a read through the registry
yields `result_object = "output/" ++ input_file_name` and persists it; a
second read returns the identical record, leaves the document unchanged,
and performs no further save. -/
theorem claim_C3_backfill_convergence {data : Obj} {rid s : String} {r : Obj}
    (h1 : dictGet (Entries.getRuns (Entries.load_state data)) rid = some (.obj r))
    (h2 : dictGet r "result_object" = none)
    (h3 : dictGet r "workflow" = some (.str "llm") ∨
      dictGet r "workflow" = some (.str "ctgan"))
    (h4 : dictGet r "input_file_name" = some (.str s))
    (h5 : s ≠ "")
    (h6 : truthyOpt (dictGet r "parameters") = true) :
    (Entries.get_run data rid).1 =
      some (.obj (dictSet r "result_object" (.str ("output/" ++ s)))) ∧
    dictGet (dictSet r "result_object" (.str ("output/" ++ s))) "result_object" =
      some (.str ("output/" ++ s)) ∧
    (Entries.get_run data rid).2.2 = true ∧
    Entries.get_run ((Entries.get_run data rid).2.1) rid =
      (some (.obj (dictSet r "result_object" (.str ("output/" ++ s)))),
       (Entries.get_run data rid).2.1, false) := by
  obtain ⟨r0, hr0, hrid, hRunID⟩ := getRuns_load_state_inv h1
  injection hr0 with hr0
  subst hr0
  have hb : Entries.backfill_result_object r =
      (dictSet r "result_object" (.str ("output/" ++ s)), true) :=
    backfill_of_missing (by rw [h2]; rfl) h6 h3 h4 h5
  have htr : truthy (JVal.obj r) = true := truthy_obj_of_get hrid
  set r1 := dictSet r "result_object" (.str ("output/" ++ s)) with hr1
  have hget1 : Entries.get_run data rid =
      (some (.obj r1),
       dictSet (Entries.load_state data) "runs"
         (.obj (dictSet (Entries.getRuns (Entries.load_state data)) rid (.obj r1))),
       true) := by
    simp only [Entries.get_run]
    rw [h1]
    dsimp only
    rw [if_pos htr]
    rw [hb]
    rfl
  have hres1 : dictGet r1 "result_object" = some (.str ("output/" ++ s)) :=
    dictGet_dictSet_self _ _ _
  refine ⟨by rw [hget1], hres1, by rw [hget1], ?_⟩
  rw [hget1]
  dsimp only
  set runsN := Entries.getRuns (Entries.load_state data) with hrunsN
  set runs2 := dictSet runsN rid (.obj r1) with hruns2
  have hmemN : rid ∈ keys runsN := mem_keys_iff_isSome.2 (by rw [h1]; rfl)
  have hinv2 : ∀ kv ∈ runs2, ∃ rr, kv.2 = JVal.obj rr ∧
      dictGet rr "run_id" = some (.str kv.1) ∧ dictGet rr "runID" = none := by
    intro kv hkv
    rcases mem_dictSet hkv with h | h
    · rw [hrunsN, getRuns_load_state] at h
      exact normalize_runs_inv h
    · subst h
      refine ⟨r1, rfl, ?_, ?_⟩
      · rw [hr1, dictGet_dictSet_ne _ _ (by decide)]
        exact hrid
      · rw [hr1, dictGet_dictSet_ne _ _ (by decide)]
        exact hRunID
  have hnd2 : (keys runs2).Nodup := by
    rw [hruns2, keys_dictSet_of_mem _ hmemN]
    exact getRuns_load_state_nodup data
  have hfix : Entries.normalize_runs runs2 = runs2 := normalize_runs_fix hinv2 hnd2
  have hdisk1 : dictGet (dictSet (Entries.load_state data) "runs" (.obj runs2)) "runs" =
      some (.obj runs2) := dictGet_dictSet_self _ _ _
  have hruns2' : Entries.getRuns (Entries.load_state
      (dictSet (Entries.load_state data) "runs" (.obj runs2))) = runs2 := by
    rw [getRuns_load_state, hdisk1]
    exact hfix
  have hget2rec : dictGet runs2 rid = some (.obj r1) := by
    rw [hruns2]
    exact dictGet_dictSet_self _ _ _
  have htr1 : truthy (JVal.obj r1) = true := truthy_obj_of_get hres1
  have hb1 : Entries.backfill_result_object r1 = (r1, false) :=
    backfill_noop_of_result (by rw [hres1]; exact truthy_output_str s)
  simp only [Entries.get_run, hruns2', hget2rec]
  rw [if_pos htr1]
  rw [hb1]
  rfl

/-- Witness for C3 at a concrete llm record carrying a `parameters`
field. -/
theorem claim_C3_witness :
    (Entries.get_run
        [("runs", JVal.obj [("r1", JVal.obj
          [("run_id", JVal.str "r1"), ("workflow", JVal.str "llm"),
           ("input_file_name", JVal.str "x.csv"),
           ("parameters", JVal.obj [("labels", JVal.str "a")])])])] "r1").1 =
      some (JVal.obj
        [("run_id", JVal.str "r1"), ("workflow", JVal.str "llm"),
         ("input_file_name", JVal.str "x.csv"),
         ("parameters", JVal.obj [("labels", JVal.str "a")]),
         ("result_object", JVal.str "output/x.csv")]) ∧
    (Entries.get_run
        [("runs", JVal.obj [("r1", JVal.obj
          [("run_id", JVal.str "r1"), ("workflow", JVal.str "llm"),
           ("input_file_name", JVal.str "x.csv"),
           ("parameters", JVal.obj [("labels", JVal.str "a")])])])] "r1").2.2 = true ∧
    (Entries.get_run
        ((Entries.get_run
          [("runs", JVal.obj [("r1", JVal.obj
            [("run_id", JVal.str "r1"), ("workflow", JVal.str "llm"),
             ("input_file_name", JVal.str "x.csv"),
             ("parameters", JVal.obj [("labels", JVal.str "a")])])])] "r1").2.1) "r1").2.2 =
      false := by
  have h := @claim_C3_backfill_convergence
    [("runs", JVal.obj [("r1", JVal.obj
      [("run_id", JVal.str "r1"), ("workflow", JVal.str "llm"),
       ("input_file_name", JVal.str "x.csv"),
       ("parameters", JVal.obj [("labels", JVal.str "a")])])])]
    "r1" "x.csv"
    [("run_id", JVal.str "r1"), ("workflow", JVal.str "llm"),
     ("input_file_name", JVal.str "x.csv"),
     ("parameters", JVal.obj [("labels", JVal.str "a")])]
    rfl rfl (Or.inl rfl) rfl (by decide) rfl
  exact ⟨h.1, h.2.2.1, by rw [h.2.2.2]⟩

/-! ## Claim C1 -/

/-- C1 counterexample: a stored run whose phase is already `Succeeded`
(terminal), refreshed through the single-run endpoint with its default
`refresh=True`.  The endpoint issues an engine query (the query list is
`["wf-1"]`, not `[]`) and returns the record with the freshly fetched
`Running` status instead of the stored record: the single-run refresh has
no terminal-phase check. -/
theorem claim_C1_counterexample :
    (Api.api_get_run
      (fun _ => .ok (some [("status", JVal.obj [("phase", JVal.str "Running")])]))
      "2024-01-02T00:00:00"
      [("runs", JVal.obj [("r1", JVal.obj
        [("run_id", JVal.str "r1"), ("argo_name", JVal.str "wf-1"),
         ("result_object", JVal.str "output/a.csv"),
         ("status", JVal.obj [("phase", JVal.str "Succeeded")])])])]
      "r1" true).2.2 = ["wf-1"] ∧
    (Api.api_get_run
      (fun _ => .ok (some [("status", JVal.obj [("phase", JVal.str "Running")])]))
      "2024-01-02T00:00:00"
      [("runs", JVal.obj [("r1", JVal.obj
        [("run_id", JVal.str "r1"), ("argo_name", JVal.str "wf-1"),
         ("result_object", JVal.str "output/a.csv"),
         ("status", JVal.obj [("phase", JVal.str "Succeeded")])])])]
      "r1" true).1 =
      .ok (JVal.obj
        [("run_id", JVal.str "r1"), ("argo_name", JVal.str "wf-1"),
         ("result_object", JVal.str "output/a.csv"),
         ("status", JVal.obj
           [("phase", JVal.str "Running"), ("startedAt", JVal.null),
            ("finishedAt", JVal.null), ("progress", JVal.null),
            ("message", JVal.null)]),
         ("updated_at", JVal.str "2024-01-02T00:00:00")]) :=
  ⟨rfl, rfl⟩

/-- The list-refresh step returns a terminal record unchanged with no
engine query and no document change (lines 376-379 of the source). -/
theorem refreshRun_terminal (gw : String → Except Unit (Option Obj)) (now : String)
    (disk : Obj) (r : Obj) (h : Api.isTerminal (Api.lowerPhase r) = true) :
    Api.refreshRun gw now disk (.obj r) = (.obj r, disk, []) := by
  unfold Api.refreshRun
  by_cases ha : truthy ((dictGet r "argo_name").getD JVal.null) = true
  · simp [ha, h]
  · simp [ha]

/-- Folding the list-refresh step over terminal records is the identity on
the accumulator state. -/
theorem list_refresh_foldl_terminal (gw : String → Except Unit (Option Obj))
    (now : String) (runs : List JVal)
    (h : ∀ v ∈ runs, ∃ r, v = JVal.obj r ∧ Api.isTerminal (Api.lowerPhase r) = true) :
    ∀ (acc : List JVal) (d : Obj) (q : List String),
      runs.foldl
        (fun (acc : List JVal × Obj × List String) run =>
          let s := Api.refreshRun gw now acc.2.1 run
          (acc.1 ++ [s.1], s.2.1, acc.2.2 ++ s.2.2)) (acc, d, q) = (acc ++ runs, d, q) := by
  induction runs with
  | nil => intro acc d q; simp
  | cons hd tl ih =>
      intro acc d q
      obtain ⟨r, hr, hterm⟩ := h hd (List.mem_cons_self _ _)
      subst hr
      simp only [List.foldl_cons]
      rw [refreshRun_terminal gw now d r hterm]
      simpa using ih (fun v hv => h v (List.mem_cons_of_mem _ hv)) (acc ++ [JVal.obj r]) d q

/-- C1 (amended): the terminal freeze holds for the refresh-all list
operation: its per-record refresh step returns a record in a terminal
phase unchanged, issues no engine query, and leaves the document
untouched, and a registry whose listed records are all terminal is
listed by `GET /runs?refresh=true` with no engine query at all.  The
single-run endpoint `GET /runs/run_id` has no terminal-phase check and
re-queries the engine regardless of the stored phase (see the
counterexample). -/
theorem claim_C1_terminal_freeze :
    (∀ (gw : String → Except Unit (Option Obj)) (now : String) (disk : Obj) (r : Obj),
      Api.isTerminal (Api.lowerPhase r) = true →
      Api.refreshRun gw now disk (.obj r) = (.obj r, disk, [])) ∧
    (∀ (gw : String → Except Unit (Option Obj)) (now : String) (data : Obj),
      (∀ v ∈ (Entries.list_runs data).1, ∃ r, v = JVal.obj r ∧
        Api.isTerminal (Api.lowerPhase r) = true) →
      Api.api_list_runs gw now data true =
        ((Entries.list_runs data).1, (Entries.list_runs data).2.1, [])) := by
  refine ⟨refreshRun_terminal, ?_⟩
  intro gw now data h
  simp only [Api.api_list_runs, Bool.not_true, Bool.false_eq_true, if_false]
  rw [list_refresh_foldl_terminal gw now (Entries.list_runs data).1 h]
  simp

/-- Witness for C1 at a one-run registry whose only record is in phase
`Succeeded`. -/
theorem claim_C1_witness :
    Api.api_list_runs (fun _ => .error ()) "t0"
      [("runs", JVal.obj [("r1", JVal.obj
        [("run_id", JVal.str "r1"), ("argo_name", JVal.str "wf-1"),
         ("result_object", JVal.str "output/a.csv"),
         ("status", JVal.obj [("phase", JVal.str "Succeeded")])])])] true =
      ([JVal.obj
         [("run_id", JVal.str "r1"), ("argo_name", JVal.str "wf-1"),
          ("result_object", JVal.str "output/a.csv"),
          ("status", JVal.obj [("phase", JVal.str "Succeeded")])]],
       [("runs", JVal.obj [("r1", JVal.obj
         [("run_id", JVal.str "r1"), ("argo_name", JVal.str "wf-1"),
          ("result_object", JVal.str "output/a.csv"),
          ("status", JVal.obj [("phase", JVal.str "Succeeded")])])])], []) := by
  have h := claim_C1_terminal_freeze.2 (fun _ => .error ()) "t0"
    [("runs", JVal.obj [("r1", JVal.obj
      [("run_id", JVal.str "r1"), ("argo_name", JVal.str "wf-1"),
       ("result_object", JVal.str "output/a.csv"),
       ("status", JVal.obj [("phase", JVal.str "Succeeded")])])])]
    (by
      intro v hv
      rw [show (Entries.list_runs
        [("runs", JVal.obj [("r1", JVal.obj
          [("run_id", JVal.str "r1"), ("argo_name", JVal.str "wf-1"),
           ("result_object", JVal.str "output/a.csv"),
           ("status", JVal.obj [("phase", JVal.str "Succeeded")])])])]).1 =
        [JVal.obj
          [("run_id", JVal.str "r1"), ("argo_name", JVal.str "wf-1"),
           ("result_object", JVal.str "output/a.csv"),
           ("status", JVal.obj [("phase", JVal.str "Succeeded")])]] from rfl] at hv
      simp only [List.mem_singleton] at hv
      subst hv
      exact ⟨_, rfl, rfl⟩)
  exact h

/-! ## Lemmas about template parameter filling -/

theorem dictGet_append_singleton_ne {o : Obj} {n m : String} (v : JVal) (h : m ≠ n) :
    dictGet (o ++ [(n, v)]) m = dictGet o m := by
  induction o with
  | nil => simp [dictGet, Ne.symm h]
  | cons kv rest ih =>
      obtain ⟨k0, v0⟩ := kv
      by_cases h0 : k0 = m
      · simp [dictGet, h0]
      · simp [dictGet, h0, ih]

theorem exceptMapM_congr {α β : Type} {f g : α → Except Unit β} {xs : List α}
    (h : ∀ x ∈ xs, f x = g x) : xs.mapM f = xs.mapM g := by
  induction xs with
  | nil => rfl
  | cons hd tl ih =>
      rw [List.mapM_cons, List.mapM_cons, h hd (List.mem_cons_self _ _),
        ih (fun x hx => h x (List.mem_cons_of_mem _ hx))]

theorem exceptMapM_id {α : Type} {f : α → Except Unit α} {xs : List α}
    (h : ∀ x ∈ xs, f x = .ok x) : xs.mapM f = .ok xs := by
  induction xs with
  | nil => rfl
  | cons hd tl ih =>
      rw [List.mapM_cons, h hd (List.mem_cons_self _ _),
        ih (fun x hx => h x (List.mem_cons_of_mem _ hx))]
      rfl

theorem fillParam_lookup_none {p : List (String × JVal)} {po : Obj} {n : String}
    (hn : dictGet po "name" = some (.str n)) (h : dictGet p n = none) :
    Argo.fillParam p (.obj po) = .ok (.obj po) := by
  simp only [Argo.fillParam, hn, h]

theorem fillParam_agree {p1 p2 : List (String × JVal)} {q : JVal}
    (hW : Argo.paramWF q = true)
    (h : ∀ m ∈ Argo.paramDeclaredName q, dictGet p1 m = dictGet p2 m) :
    Argo.fillParam p1 q = Argo.fillParam p2 q := by
  cases q with
  | obj po =>
      cases hn : dictGet po "name" with
      | none => simp only [Argo.fillParam, hn]
      | some w =>
          cases w with
          | str n =>
              simp only [Argo.fillParam, hn,
                h n (by simp [Argo.paramDeclaredName, hn])]
          | null => simp only [Argo.fillParam, hn]
          | bool b => simp only [Argo.fillParam, hn]
          | num m => simp only [Argo.fillParam, hn]
          | arr xs => simp only [Argo.fillParam, hn]
          | obj o2 => simp only [Argo.fillParam, hn]
  | null => simp [Argo.paramWF] at hW
  | bool b => simp [Argo.paramWF] at hW
  | num m => simp [Argo.paramWF] at hW
  | str s => simp [Argo.paramWF] at hW
  | arr xs => simp [Argo.paramWF] at hW

theorem fillParam_id {p : List (String × JVal)} {q : JVal}
    (hW : Argo.paramWF q = true)
    (h : ∀ m ∈ Argo.paramDeclaredName q, dictGet p m = none) :
    Argo.fillParam p q = .ok q := by
  cases q with
  | obj po =>
      cases hn : dictGet po "name" with
      | none => simp only [Argo.fillParam, hn]
      | some w =>
          cases w with
          | str n =>
              exact fillParam_lookup_none hn (h n (by simp [Argo.paramDeclaredName, hn]))
          | null => simp only [Argo.fillParam, hn]
          | bool b => simp only [Argo.fillParam, hn]
          | num m => simp only [Argo.fillParam, hn]
          | arr xs => simp only [Argo.fillParam, hn]
          | obj o2 => simp only [Argo.fillParam, hn]
  | null => simp [Argo.paramWF] at hW
  | bool b => simp [Argo.paramWF] at hW
  | num m => simp [Argo.paramWF] at hW
  | str s => simp [Argo.paramWF] at hW
  | arr xs => simp [Argo.paramWF] at hW

theorem mem_foldr_append {f : JVal → List String} {xs : List JVal} {q : JVal} {m : String}
    (hq : q ∈ xs) (hm : m ∈ f q) :
    m ∈ xs.foldr (fun p acc => f p ++ acc) [] := by
  induction xs with
  | nil => simp at hq
  | cons hd tl ih =>
      rcases List.mem_cons.1 hq with h | h
      · subst h; simp [hm]
      · simp [ih h]

theorem fillTemplateParams_agree {p1 p2 : List (String × JVal)} {t : JVal}
    (hW : Argo.templateWF t = true)
    (h : ∀ m ∈ Argo.templateDeclaredNames t, dictGet p1 m = dictGet p2 m) :
    Argo.fillTemplateParams p1 t = Argo.fillTemplateParams p2 t := by
  cases t with
  | obj tobj =>
      cases hi : dictGet tobj "inputs" with
      | none => simp only [Argo.fillTemplateParams, hi]
      | some w =>
          cases w with
          | obj io =>
              cases hp : dictGet io "parameters" with
              | none => simp only [Argo.fillTemplateParams, hi, hp]
              | some u =>
                  cases u with
                  | arr xs =>
                      simp only [Argo.templateWF, hi, hp] at hW
                      simp only [Argo.templateDeclaredNames, hi, hp] at h
                      simp only [Argo.fillTemplateParams, hi, hp]
                      rw [show xs.mapM (Argo.fillParam p1) = xs.mapM (Argo.fillParam p2) from
                        exceptMapM_congr (fun q hq =>
                          fillParam_agree (List.all_eq_true.1 hW q hq)
                            (fun m hm => h m (mem_foldr_append hq hm)))]
                  | null => simp [Argo.templateWF, hi, hp] at hW
                  | bool b => simp [Argo.templateWF, hi, hp] at hW
                  | num m2 => simp [Argo.templateWF, hi, hp] at hW
                  | str s => simp [Argo.templateWF, hi, hp] at hW
                  | obj o2 => simp [Argo.templateWF, hi, hp] at hW
          | null => simp [Argo.templateWF, hi] at hW
          | bool b => simp [Argo.templateWF, hi] at hW
          | num m2 => simp [Argo.templateWF, hi] at hW
          | str s => simp [Argo.templateWF, hi] at hW
          | arr ys => simp [Argo.templateWF, hi] at hW
  | null => simp [Argo.templateWF] at hW
  | bool b => simp [Argo.templateWF] at hW
  | num m2 => simp [Argo.templateWF] at hW
  | str s => simp [Argo.templateWF] at hW
  | arr ys => simp [Argo.templateWF] at hW

theorem fillTemplateParams_id {p : List (String × JVal)} {t : JVal}
    (hW : Argo.templateWF t = true)
    (h : ∀ m ∈ Argo.templateDeclaredNames t, dictGet p m = none) :
    Argo.fillTemplateParams p t = .ok t := by
  cases t with
  | obj tobj =>
      cases hi : dictGet tobj "inputs" with
      | none => simp only [Argo.fillTemplateParams, hi]
      | some w =>
          cases w with
          | obj io =>
              cases hp : dictGet io "parameters" with
              | none => simp only [Argo.fillTemplateParams, hi, hp]
              | some u =>
                  cases u with
                  | arr xs =>
                      simp only [Argo.templateWF, hi, hp] at hW
                      simp only [Argo.templateDeclaredNames, hi, hp] at h
                      simp only [Argo.fillTemplateParams, hi, hp]
                      rw [show xs.mapM (Argo.fillParam p) = .ok xs from
                        exceptMapM_id (fun q hq =>
                          fillParam_id (List.all_eq_true.1 hW q hq)
                            (fun m hm => h m (mem_foldr_append hq hm)))]
                      dsimp only
                      rw [dictSet_eq_of_get hp, dictSet_eq_of_get hi]
                  | null => simp [Argo.templateWF, hi, hp] at hW
                  | bool b => simp [Argo.templateWF, hi, hp] at hW
                  | num m2 => simp [Argo.templateWF, hi, hp] at hW
                  | str s => simp [Argo.templateWF, hi, hp] at hW
                  | obj o2 => simp [Argo.templateWF, hi, hp] at hW
          | null => simp [Argo.templateWF, hi] at hW
          | bool b => simp [Argo.templateWF, hi] at hW
          | num m2 => simp [Argo.templateWF, hi] at hW
          | str s => simp [Argo.templateWF, hi] at hW
          | arr ys => simp [Argo.templateWF, hi] at hW
  | null => simp [Argo.templateWF] at hW
  | bool b => simp [Argo.templateWF] at hW
  | num m2 => simp [Argo.templateWF] at hW
  | str s => simp [Argo.templateWF] at hW
  | arr ys => simp [Argo.templateWF] at hW

/-! ## Claim C4 -/

/-- C4 counterexample: a declared parameter `x` with in-spec value
`"default"` and a caller mapping binding `x` to the empty string.  The
claim says an empty value must not overwrite, yet the filled spec carries
`value = ""`: the source's guard is `is not None`, not non-emptiness. -/
theorem claim_C4_counterexample :
    Argo.fill_parameters [("x", JVal.str "")]
      [JVal.obj [("inputs", JVal.obj [("parameters", JVal.arr
        [JVal.obj [("name", JVal.str "x"), ("value", JVal.str "default")]])])]] =
      .ok [JVal.obj [("inputs", JVal.obj [("parameters", JVal.arr
        [JVal.obj [("name", JVal.str "x"), ("value", JVal.str "")]])])]] ∧
    dictGet [("name", JVal.str "x"), ("value", JVal.str "")] "value" =
      some (JVal.str "") :=
  ⟨rfl, rfl⟩

/-- C4 (amended): a declared step parameter's in-spec value is overwritten
with the stringified caller value exactly when the parameter name exists
in the mapping and its value is not `None` (empty strings do overwrite);
parameters not declared by any step have no effect on the filled spec. -/
theorem claim_C4_parameter_fill :
    (∀ (params : List (String × JVal)) (po : Obj) (n : String) (v : JVal),
      dictGet po "name" = some (.str n) → dictGet params n = some v →
      jvalBeq v .null = false →
      Argo.fillParam params (.obj po) =
        .ok (.obj (dictSet po "value" (.str (pyStr v))))) ∧
    (∀ (params : List (String × JVal)) (po : Obj) (n : String),
      dictGet po "name" = some (.str n) → dictGet params n = none →
      Argo.fillParam params (.obj po) = .ok (.obj po)) ∧
    (∀ (params : List (String × JVal)) (po : Obj) (n : String),
      dictGet po "name" = some (.str n) → dictGet params n = some .null →
      Argo.fillParam params (.obj po) = .ok (.obj po)) ∧
    (∀ (params : List (String × JVal)) (n : String) (v : JVal) (ts : List JVal),
      Argo.templatesWF ts = true → n ∉ Argo.declaredNames ts →
      Argo.fill_parameters (params ++ [(n, v)]) ts = Argo.fill_parameters params ts) := by
  refine ⟨?_, ?_, ?_, ?_⟩
  · intro params po n v hn hv hne
    simp only [Argo.fillParam, hn, hv, hne, Bool.not_false, if_true]
  · intro params po n hn hv
    exact fillParam_lookup_none hn hv
  · intro params po n hn hv
    simp only [Argo.fillParam, hn, hv, jvalBeq, Bool.not_true, Bool.false_eq_true, if_false]
  · intro params n v ts hWF hnd
    unfold Argo.fill_parameters
    have hne : (params ++ [(n, v)]).isEmpty = false := by
      cases params <;> rfl
    rw [hne]
    simp only [Bool.false_eq_true, if_false]
    have hdecl : ∀ t ∈ ts, ∀ m ∈ Argo.templateDeclaredNames t, m ≠ n := by
      intro t ht m hm hmn
      subst hmn
      exact hnd (mem_foldr_append ht hm)
    by_cases hp : params.isEmpty = true
    · have hpnil : params = [] := by
        cases params with
        | nil => rfl
        | cons a l => simp at hp
      subst hpnil
      simp only [List.isEmpty_nil, if_true]
      exact exceptMapM_id (fun t ht =>
        fillTemplateParams_id (List.all_eq_true.1 hWF t ht)
          (fun m hm => by
            have : m ≠ n := hdecl t ht m hm
            simp [dictGet, Ne.symm this]))
    · simp only [hp, Bool.false_eq_true, if_false]
      exact exceptMapM_congr (fun t ht =>
        fillTemplateParams_agree (List.all_eq_true.1 hWF t ht)
          (fun m hm => dictGet_append_singleton_ne v (hdecl t ht m hm)))

/-- Witness for C4: an overwrite with a stringified integer, a declared
parameter missing from the mapping, and an undeclared extra parameter
having no effect. -/
theorem claim_C4_witness :
    Argo.fillParam [("x", JVal.num 5)] (.obj [("name", JVal.str "x"), ("value", JVal.str "d")]) =
      .ok (.obj [("name", JVal.str "x"), ("value", JVal.str "5")]) ∧
    Argo.fillParam [("y", JVal.str "w")] (.obj [("name", JVal.str "x"), ("value", JVal.str "d")]) =
      .ok (.obj [("name", JVal.str "x"), ("value", JVal.str "d")]) ∧
    Argo.fill_parameters [("x", JVal.str "1"), ("zz", JVal.str "9")]
      [JVal.obj [("inputs", JVal.obj [("parameters", JVal.arr
        [JVal.obj [("name", JVal.str "x"), ("value", JVal.str "d")]])])]] =
      Argo.fill_parameters [("x", JVal.str "1")]
        [JVal.obj [("inputs", JVal.obj [("parameters", JVal.arr
          [JVal.obj [("name", JVal.str "x"), ("value", JVal.str "d")]])])]] :=
  ⟨claim_C4_parameter_fill.1 [("x", JVal.num 5)]
      [("name", JVal.str "x"), ("value", JVal.str "d")] "x" (JVal.num 5) rfl rfl rfl,
   claim_C4_parameter_fill.2.1 [("y", JVal.str "w")]
      [("name", JVal.str "x"), ("value", JVal.str "d")] "x" rfl rfl,
   claim_C4_parameter_fill.2.2.2 [("x", JVal.str "1")] "zz" (JVal.str "9")
      [JVal.obj [("inputs", JVal.obj [("parameters", JVal.arr
        [JVal.obj [("name", JVal.str "x"), ("value", JVal.str "d")]])])]]
      rfl (by decide)⟩

/-! ## Lemmas about the start-time ordering -/

theorem charsLe_total (a : List Char) : ∀ b, (charsLe a b || charsLe b a) = true := by
  induction a with
  | nil => intro b; simp [charsLe]
  | cons x xs ih =>
      intro b
      cases b with
      | nil => simp [charsLe]
      | cons y ys =>
          rcases lt_trichotomy x y with h | h | h
          · simp [charsLe, h]
          · subst h
            simp only [charsLe, lt_irrefl, if_false]
            exact ih ys
          · simp [charsLe, h, not_lt_of_gt h]

theorem charsLe_trans (a : List Char) :
    ∀ b c, charsLe a b = true → charsLe b c = true → charsLe a c = true := by
  induction a with
  | nil => intro b c _ _; simp [charsLe]
  | cons x xs ih =>
      intro b c h1 h2
      cases b with
      | nil => simp [charsLe] at h1
      | cons y ys =>
          cases c with
          | nil => simp [charsLe] at h2
          | cons z zs =>
              rcases lt_trichotomy x y with hxy | hxy | hxy
              · rcases lt_trichotomy y z with hyz | hyz | hyz
                · simp [charsLe, lt_trans hxy hyz]
                · subst hyz
                  simp [charsLe, hxy]
                · simp [charsLe, not_lt_of_gt hyz, hyz] at h2
              · subst hxy
                rcases lt_trichotomy x z with hyz | hyz | hyz
                · simp [charsLe, hyz]
                · subst hyz
                  simp only [charsLe, lt_irrefl, if_false] at h1 h2 ⊢
                  exact ih ys zs h1 h2
                · simp [charsLe, not_lt_of_gt hyz, hyz] at h2
              · simp [charsLe, not_lt_of_gt hxy, hxy] at h1

theorem pyStrLe_total (a b : String) : (pyStrLe a b || pyStrLe b a) = true :=
  charsLe_total a.data b.data

theorem pyStrLe_trans {a b c : String} (h1 : pyStrLe a b = true) (h2 : pyStrLe b c = true) :
    pyStrLe a c = true :=
  charsLe_trans a.data b.data c.data h1 h2

theorem podLe_total (a b : Argo.PodEntry) : (Argo.podLe a b || Argo.podLe b a) = true :=
  pyStrLe_total a.1 b.1

theorem podLe_trans (a b c : Argo.PodEntry) (h1 : Argo.podLe a b = true)
    (h2 : Argo.podLe b c = true) : Argo.podLe a c = true :=
  pyStrLe_trans h1 h2

/-! ## Claim C6 -/

/-- `podLe` is total as a relation. -/
instance : IsTotal Argo.PodEntry (fun a b => Argo.podLe a b = true) where
  total a b := by
    rcases Bool.or_eq_true_iff.1 (podLe_total a b) with h | h
    · exact Or.inl h
    · exact Or.inr h

/-- `podLe` is transitive as a relation. -/
instance : IsTrans Argo.PodEntry (fun a b => Argo.podLe a b = true) where
  trans := podLe_trans

/-- C6: the pod entries of `_extract_pod_nodes` are sorted by start time
ascending (nodes with no recorded start time carry the key `""`, which is
minimal), the sorted list is a permutation of the entries extracted from
the document, ties keep document order (any chain that is already in key
order and appears as a sublist of the document's entry list is still a
sublist of the sorted list), and the extracted node list is exactly the
sorted entry list with the key dropped — for every workflow document,
hence regardless of the order the nodes appear in. -/
theorem claim_C6_log_ordering (wf : Obj) :
    List.Pairwise (fun a b : Argo.PodEntry => Argo.podLe a b = true)
      (Argo.sortPodEntries (Argo.podEntries (Argo.nodeValues wf))) ∧
    (Argo.sortPodEntries (Argo.podEntries (Argo.nodeValues wf))).Perm
      (Argo.podEntries (Argo.nodeValues wf)) ∧
    (∀ l : List Argo.PodEntry,
      List.Pairwise (fun a b => Argo.podLe a b = true) l →
      l.Sublist (Argo.podEntries (Argo.nodeValues wf)) →
      l.Sublist (Argo.sortPodEntries (Argo.podEntries (Argo.nodeValues wf)))) ∧
    Argo.extract_pod_nodes wf =
      (Argo.sortPodEntries (Argo.podEntries (Argo.nodeValues wf))).map (·.2) := by
  refine ⟨?_, ?_, ?_, rfl⟩
  · exact List.sorted_insertionSort _ _
  · exact List.perm_insertionSort _ _
  · intro l hp hs
    exact List.sublist_insertionSort hp hs


/-- Witness for C6: three pod nodes with start times T2, T1, T3 (T1 < T2 <
T3) in document order come out ordered T1, T2, T3, and an already-ordered
pair keeps its relative order. -/
theorem claim_C6_witness :
    Argo.extract_pod_nodes
      [("status", JVal.obj [("nodes", JVal.obj
        [("n1", JVal.obj [("podName", JVal.str "p1"), ("displayName", JVal.str "a"),
          ("phase", JVal.str "Succeeded"), ("startedAt", JVal.str "2024-01-01T00:02:00Z")]),
         ("n2", JVal.obj [("podName", JVal.str "p2"), ("displayName", JVal.str "b"),
          ("phase", JVal.str "Succeeded"), ("startedAt", JVal.str "2024-01-01T00:01:00Z")]),
         ("n3", JVal.obj [("podName", JVal.str "p3"), ("displayName", JVal.str "c"),
          ("phase", JVal.str "Succeeded"), ("startedAt", JVal.str "2024-01-01T00:03:00Z")])])])] =
      [("b", "p2", "Succeeded"), ("a", "p1", "Succeeded"), ("c", "p3", "Succeeded")] ∧
    List.Sublist
      [("2024-01-01T00:02:00Z", "a", "p1", "Succeeded"),
       ("2024-01-01T00:03:00Z", "c", "p3", "Succeeded")]
      (Argo.sortPodEntries (Argo.podEntries (Argo.nodeValues
        [("status", JVal.obj [("nodes", JVal.obj
          [("n1", JVal.obj [("podName", JVal.str "p1"), ("displayName", JVal.str "a"),
            ("phase", JVal.str "Succeeded"), ("startedAt", JVal.str "2024-01-01T00:02:00Z")]),
           ("n2", JVal.obj [("podName", JVal.str "p2"), ("displayName", JVal.str "b"),
            ("phase", JVal.str "Succeeded"), ("startedAt", JVal.str "2024-01-01T00:01:00Z")]),
           ("n3", JVal.obj [("podName", JVal.str "p3"), ("displayName", JVal.str "c"),
            ("phase", JVal.str "Succeeded"), ("startedAt", JVal.str "2024-01-01T00:03:00Z")])])])]))) := by
  refine ⟨?_, ?_⟩
  · rw [(claim_C6_log_ordering _).2.2.2]
    rfl
  · exact (claim_C6_log_ordering _).2.2.1 _ (by decide) (by decide)

/-! ## Claim C5 -/

/-- C5 counterexample: scripted responses `ok ""`, `ok ""`, `ok "logs
here"`.  The first (`main`) response is empty, so the retry runs; the
`wait` request succeeds with an empty body and the retry stops there —
`main` is never requested again (two calls, not three) and the body is the
placeholder, even though the next scripted response is the non-empty
`"logs here"` the claim's first-non-empty rule would have kept. -/
theorem claim_C5_counterexample :
    Argo.nodeBody [.ok "", .ok "", .ok "logs here"] "p1" =
      ("(no log output yet)", [.ok "logs here"],
       [(some "p1", "main"), (some "p1", "wait")]) :=
  rfl

/-- C5 (amended): per node, the `main` container is requested first; a
successful non-whitespace response is kept trimmed; on a successful but
whitespace-only response one retry requests `wait` then `main` in turn,
keeping the response of the first request that succeeds — even a
whitespace-only success ends the retry (rendered as the literal
placeholder) — and trying the next container only when a request raises;
if the first request raises, or the whole retry raises, the body is the
failure placeholder built from the last error. -/
theorem claim_C5_log_retry :
    (∀ (pod t : String) (rest : Argo.Trace),
      pyStrip t ≠ "" →
      Argo.nodeBody (.ok t :: rest) pod = (pyStrip t, rest, [(some pod, "main")])) ∧
    (∀ (pod t t2 : String) (rest : Argo.Trace),
      pyStrip t = "" →
      Argo.nodeBody (.ok t :: .ok t2 :: rest) pod =
        ((if pyStrip t2 = "" then "(no log output yet)" else pyStrip t2), rest,
         [(some pod, "main"), (some pod, "wait")])) ∧
    (∀ (pod t : String) (e : Argo.FetchErr) (r3 : Except Argo.FetchErr String)
        (rest : Argo.Trace),
      pyStrip t = "" →
      Argo.nodeBody (.ok t :: .error e :: r3 :: rest) pod =
        ((match r3 with
          | .ok u => if pyStrip u = "" then "(no log output yet)" else pyStrip u
          | .error e2 => Argo.failBody pod e2), rest,
         [(some pod, "main"), (some pod, "wait"), (some pod, "main")])) ∧
    (∀ (pod : String) (e : Argo.FetchErr) (rest : Argo.Trace),
      Argo.nodeBody (.error e :: rest) pod =
        (Argo.failBody pod e, rest, [(some pod, "main")])) := by
  refine ⟨?_, ?_, ?_, ?_⟩
  · intro pod t rest h
    simp [Argo.nodeBody, Argo.fetch_logs_from_argo, Argo.fetchLoop, Argo.takeResponse, h]
  · intro pod t t2 rest h
    simp [Argo.nodeBody, Argo.fetch_logs_from_argo, Argo.fetchLoop, Argo.takeResponse, h]
  · intro pod t e r3 rest h
    cases r3 with
    | ok u =>
        simp [Argo.nodeBody, Argo.fetch_logs_from_argo, Argo.fetchLoop, Argo.takeResponse, h]
    | error e2 =>
        simp [Argo.nodeBody, Argo.fetch_logs_from_argo, Argo.fetchLoop, Argo.takeResponse, h]
  · intro pod e rest
    simp [Argo.nodeBody, Argo.fetch_logs_from_argo, Argo.fetchLoop, Argo.takeResponse]

/-- Witness for C5: a kept non-empty `main` response, a retry whose `wait`
response is kept, and a retry that falls through to `main` after a `wait`
failure. -/
theorem claim_C5_witness :
    Argo.nodeBody [.ok "hello\n"] "p1" = ("hello", [], [(some "p1", "main")]) ∧
    Argo.nodeBody [.ok " ", .ok "wait logs"] "p2" =
      ("wait logs", [], [(some "p2", "main"), (some "p2", "wait")]) ∧
    Argo.nodeBody [.ok "", .error (.httpError (some 404)), .ok "main logs"] "p3" =
      ("main logs", [],
       [(some "p3", "main"), (some "p3", "wait"), (some "p3", "main")]) := by
  refine ⟨?_, ?_, ?_⟩
  · have h := claim_C5_log_retry.1 "p1" "hello\n" [] (by decide)
    exact h
  · have h := claim_C5_log_retry.2.1 "p2" " " "wait logs" [] (by decide)
    exact h
  · have h := claim_C5_log_retry.2.2.1 "p3" "" (.httpError (some 404)) (.ok "main logs") []
      (by decide)
    exact h

/-! ## Lemmas about section assembly -/

theorem intercalate_go_extends (l : List String) :
    ∀ (acc sep : String), ∃ rest, String.intercalate.go acc sep l = acc ++ rest := by
  induction l with
  | nil =>
      intro acc sep
      refine ⟨"", ?_⟩
      rw [show String.intercalate.go acc sep [] = acc from rfl]
      simp
  | cons a as ih =>
      intro acc sep
      obtain ⟨rest, hrest⟩ := ih (acc ++ sep ++ a) sep
      refine ⟨sep ++ a ++ rest, ?_⟩
      rw [show String.intercalate.go acc sep (a :: as) =
        String.intercalate.go (acc ++ sep ++ a) sep as from rfl, hrest]
      simp [String.append_assoc]

theorem intercalate_go_split (l : List String) :
    ∀ (acc sep s : String), s ∈ l →
      ∃ pre post, String.intercalate.go acc sep l = pre ++ s ++ post := by
  induction l with
  | nil => intro _ _ s h; simp at h
  | cons a as ih =>
      intro acc sep s h
      rcases List.mem_cons.1 h with h | h
      · subst h
        obtain ⟨rest, hrest⟩ := intercalate_go_extends as (acc ++ sep ++ s) sep
        refine ⟨acc ++ sep, rest, ?_⟩
        rw [show String.intercalate.go acc sep (s :: as) =
          String.intercalate.go (acc ++ sep ++ s) sep as from rfl, hrest]
      · obtain ⟨pre, post, hp⟩ := ih (acc ++ sep ++ a) sep s h
        refine ⟨pre, post, ?_⟩
        rw [show String.intercalate.go acc sep (a :: as) =
          String.intercalate.go (acc ++ sep ++ a) sep as from rfl, hp]

theorem intercalate_split {sep s : String} {l : List String} (h : s ∈ l) :
    ∃ pre post, String.intercalate sep l = pre ++ s ++ post := by
  cases l with
  | nil => simp at h
  | cons a as =>
      rcases List.mem_cons.1 h with h | h
      · subst h
        obtain ⟨rest, hrest⟩ := intercalate_go_extends as s sep
        exact ⟨"", rest, by
          rw [show String.intercalate sep (s :: as) =
            String.intercalate.go s sep as from rfl, hrest]
          simp [String.append_assoc]⟩
      · obtain ⟨pre, post, hp⟩ := intercalate_go_split as a sep s h
        exact ⟨pre, post, by
          rw [show String.intercalate sep (a :: as) =
            String.intercalate.go a sep as from rfl, hp]⟩

theorem nodeSections_cons (tr : Argo.Trace) (n : String × String × String)
    (ns : List (String × String × String)) :
    Argo.nodeSections tr (n :: ns) =
      ((Argo.nodeSection tr n).1 :: (Argo.nodeSections (Argo.nodeSection tr n).2.1 ns).1,
       (Argo.nodeSections (Argo.nodeSection tr n).2.1 ns).2.1,
       (Argo.nodeSection tr n).2.2 ++
         (Argo.nodeSections (Argo.nodeSection tr n).2.1 ns).2.2) := rfl

theorem nodeSections_append (A : List (String × String × String)) :
    ∀ (tr : Argo.Trace) (B : List (String × String × String)),
      Argo.nodeSections tr (A ++ B) =
        ((Argo.nodeSections tr A).1 ++
          (Argo.nodeSections (Argo.nodeSections tr A).2.1 B).1,
         (Argo.nodeSections (Argo.nodeSections tr A).2.1 B).2.1,
         (Argo.nodeSections tr A).2.2 ++
          (Argo.nodeSections (Argo.nodeSections tr A).2.1 B).2.2) := by
  induction A with
  | nil => intro tr B; simp [Argo.nodeSections]
  | cons hd tl ih =>
      intro tr B
      rw [List.cons_append, nodeSections_cons, nodeSections_cons, ih]
      simp [List.append_assoc]

/-! ## Claim C7 -/

/-- C7: if fetching one pod node's logs raises (scripted as an error
response for its request), aggregation does not abort: the output is still
produced, the failing node contributes a placeholder section built from
the failure (naming the HTTP status when known), and every section
produced by the other nodes still appears verbatim in the returned
text. -/
theorem claim_C7_partial_failure
    {tr trB trC : Argo.Trace} {wf : Obj}
    {A B : List (String × String × String)} {nd : String × String × String}
    {sectionsA sectionsB : List String} {callsA callsB : List Argo.FetchCall}
    {e : Argo.FetchErr}
    (h1 : Argo.extract_pod_nodes wf = A ++ nd :: B)
    (h2 : Argo.nodeSections tr A = (sectionsA, .error e :: trB, callsA))
    (h3 : Argo.nodeSections trB B = (sectionsB, trC, callsB)) :
    ∃ text, (Argo.get_workflow_logs tr wf).1 = .ok text ∧
      (∃ pre post, text =
        pre ++ ("=== " ++ nd.1 ++ " [" ++ nd.2.1 ++ "] (phase: " ++ nd.2.2 ++ ") ===\n" ++
          Argo.failBody nd.2.1 e) ++ post) ∧
      (∀ s ∈ sectionsA ++ sectionsB, ∃ pre post, text = pre ++ s ++ post) ∧
      (∀ st : Nat, Argo.failBody nd.2.1 (.httpError (some st)) =
        "Failed to fetch logs for pod " ++ nd.2.1 ++ " (HTTP " ++ toString st ++ ").") := by
  have hne : (A ++ nd :: B).isEmpty = false := by
    cases A <;> rfl
  have hnd : Argo.nodeSection (.error e :: trB) nd =
      ("=== " ++ nd.1 ++ " [" ++ nd.2.1 ++ "] (phase: " ++ nd.2.2 ++ ") ===\n" ++
        Argo.failBody nd.2.1 e, trB, [(some nd.2.1, "main")]) := rfl
  have hsec : Argo.nodeSections tr (A ++ nd :: B) =
      (sectionsA ++ (("=== " ++ nd.1 ++ " [" ++ nd.2.1 ++ "] (phase: " ++ nd.2.2 ++
          ") ===\n" ++ Argo.failBody nd.2.1 e) :: sectionsB),
       trC, callsA ++ ((some nd.2.1, "main") :: callsB)) := by
    rw [nodeSections_append, h2]
    dsimp only
    rw [nodeSections_cons, hnd]
    dsimp only
    rw [h3]
    simp
  have hmain : ∃ sections2,
      (Argo.get_workflow_logs tr wf).1 = .ok (String.intercalate "\n\n" sections2) ∧
      ∀ x ∈ sectionsA ++ (("=== " ++ nd.1 ++ " [" ++ nd.2.1 ++ "] (phase: " ++ nd.2.2 ++
          ") ===\n" ++ Argo.failBody nd.2.1 e) :: sectionsB), x ∈ sections2 := by
    unfold Argo.get_workflow_logs
    rw [h1]
    dsimp only
    rw [hne]
    simp only [Bool.false_eq_true, if_false]
    rw [hsec]
    dsimp only
    cases hagg : (Argo.fetch_logs_from_argo trC none none).1 with
    | error e2 =>
        exact ⟨_, rfl, fun x hx => hx⟩
    | ok t =>
        dsimp only
        by_cases ht : pyStrip t = ""
        · rw [if_pos ht]
          exact ⟨_, rfl, fun x hx => hx⟩
        · rw [if_neg ht]
          exact ⟨_, rfl, fun x hx => List.mem_append_left _ hx⟩
  obtain ⟨sections2, hres, hmem⟩ := hmain
  refine ⟨String.intercalate "\n\n" sections2, hres, ?_, ?_, fun st => rfl⟩
  · exact intercalate_split (hmem _ (List.mem_append_right _ (List.mem_cons_self _ _)))
  · intro s hs
    rcases List.mem_append.1 hs with h | h
    · exact intercalate_split (hmem _ (List.mem_append_left _ h))
    · exact intercalate_split (hmem _
        (List.mem_append_right _ (List.mem_cons_of_mem _ h)))

/-- Witness for C7: three pods; the middle pod's request fails with HTTP
500, the other two return real text, and both still appear. -/
theorem claim_C7_witness :
    ∃ text, (Argo.get_workflow_logs
        [.ok "alpha", .error (.httpError (some 500)), .ok "gamma", .ok ""]
        [("status", JVal.obj [("nodes", JVal.obj
          [("n1", JVal.obj [("podName", JVal.str "p1"), ("displayName", JVal.str "a"),
            ("phase", JVal.str "Running"), ("startedAt", JVal.str "t1")]),
           ("n2", JVal.obj [("podName", JVal.str "p2"), ("displayName", JVal.str "b"),
            ("phase", JVal.str "Running"), ("startedAt", JVal.str "t2")]),
           ("n3", JVal.obj [("podName", JVal.str "p3"), ("displayName", JVal.str "c"),
            ("phase", JVal.str "Running"), ("startedAt", JVal.str "t3")])])])]).1 =
      .ok text ∧
      (∃ pre post, text =
        pre ++ ("=== " ++ "b" ++ " [" ++ "p2" ++ "] (phase: " ++ "Running" ++ ") ===\n" ++
          Argo.failBody "p2" (.httpError (some 500))) ++ post) ∧
      (∀ s ∈ ["=== a [p1] (phase: Running) ===\nalpha"] ++
          ["=== c [p3] (phase: Running) ===\ngamma"],
        ∃ pre post, text = pre ++ s ++ post) ∧
      (∀ st : Nat, Argo.failBody "p2" (.httpError (some st)) =
        "Failed to fetch logs for pod " ++ "p2" ++ " (HTTP " ++ toString st ++ ").") :=
  @claim_C7_partial_failure
    [.ok "alpha", .error (.httpError (some 500)), .ok "gamma", .ok ""]
    [.ok "gamma", .ok ""] [.ok ""]
    [("status", JVal.obj [("nodes", JVal.obj
      [("n1", JVal.obj [("podName", JVal.str "p1"), ("displayName", JVal.str "a"),
        ("phase", JVal.str "Running"), ("startedAt", JVal.str "t1")]),
       ("n2", JVal.obj [("podName", JVal.str "p2"), ("displayName", JVal.str "b"),
        ("phase", JVal.str "Running"), ("startedAt", JVal.str "t2")]),
       ("n3", JVal.obj [("podName", JVal.str "p3"), ("displayName", JVal.str "c"),
        ("phase", JVal.str "Running"), ("startedAt", JVal.str "t3")])])])]
    [("a", "p1", "Running")] [("c", "p3", "Running")] ("b", "p2", "Running")
    ["=== a [p1] (phase: Running) ===\nalpha"]
    ["=== c [p3] (phase: Running) ===\ngamma"]
    [(some "p1", "main")] [(some "p3", "main")]
    (.httpError (some 500))
    rfl rfl rfl

/-! ## Claim C2 -/

/-- A key returned by `_extract_result_key_from_artifacts` is truthy (the
source returns a key only after `if key:`). -/
theorem extract_result_key_truthy {arts : List JVal} {fk : JVal}
    (h : Api.extract_result_key arts = some fk) : truthy fk = true := by
  induction arts with
  | nil => simp [Api.extract_result_key] at h
  | cons a rest ih =>
      unfold Api.extract_result_key at h
      rcases a with _ | b | n | s | xs | ao
      · exact ih h
      · exact ih h
      · exact ih h
      · exact ih h
      · exact ih h
      · dsimp only at h
        cases hs3 : dictGet ao "s3" with
        | none => rw [hs3] at h; exact ih h
        | some w =>
            rw [hs3] at h
            cases w with
            | obj m =>
                dsimp only at h
                cases hk : dictGet m "key" with
                | none => rw [hk] at h; exact ih h
                | some key =>
                    rw [hk] at h
                    dsimp only at h
                    by_cases ht : truthy key = true
                    · rw [if_pos ht] at h
                      cases h
                      exact ht
                    · rw [if_neg ht] at h
                      exact ih h
            | null => exact ih h
            | bool b2 => exact ih h
            | num n2 => exact ih h
            | str s2 => exact ih h
            | arr ys => exact ih h

/-- C2 counterexample: presigning the stored key `output/a.csv` fails with
an `S3Error`, and the workflow document's artifacts re-resolve to the very
same key.  The claim says the operation retries presigning exactly once
with that fallback key (persisting it first); the code instead raises
`Result not available` after a single presign call, because the fallback
equals the stored key. -/
theorem claim_C2_counterexample :
    (Api.api_get_run_result
      (fun _ => .ok (some
        [("status", JVal.obj
          [("phase", JVal.str "Succeeded"),
           ("outputs", JVal.obj [("artifacts", JVal.arr
             [JVal.obj [("s3", JVal.obj [("key", JVal.str "output/a.csv")])]])])])]))
      (fun _ => .error ()) "2024-03-01T00:00:00"
      [("runs", JVal.obj [("r1", JVal.obj
        [("run_id", JVal.str "r1"), ("argo_name", JVal.str "wf"),
         ("result_object", JVal.str "output/a.csv"),
         ("status", JVal.obj [("phase", JVal.str "Succeeded")])])])]
      "r1").1 = .error (.httpExc 404 "Result not available") ∧
    (Api.api_get_run_result
      (fun _ => .ok (some
        [("status", JVal.obj
          [("phase", JVal.str "Succeeded"),
           ("outputs", JVal.obj [("artifacts", JVal.arr
             [JVal.obj [("s3", JVal.obj [("key", JVal.str "output/a.csv")])]])])])]))
      (fun _ => .error ()) "2024-03-01T00:00:00"
      [("runs", JVal.obj [("r1", JVal.obj
        [("run_id", JVal.str "r1"), ("argo_name", JVal.str "wf"),
         ("result_object", JVal.str "output/a.csv"),
         ("status", JVal.obj [("phase", JVal.str "Succeeded")])])])]
      "r1").2.2 = [JVal.str "output/a.csv"] :=
  ⟨rfl, rfl⟩

/-- C2 (amended): when presigning the stored key raises an `S3Error`, the
handler re-resolves a fallback key from the latest workflow document only
when the run has an engine name; it persists the fallback key and retries
presigning exactly once precisely when that key exists and differs from
the failed key, returning the URL on success and `Result not available` on
a second failure; when the fallback key is absent or equal to the stored
key, or there is no engine name, it fails immediately with `Result not
available` after the single original presign call and persists nothing. -/
theorem claim_C2_result_fallback :
    (∀ (gw : String → Except Unit (Option Obj)) (presign : JVal → Except Unit String)
        (now : String) (disk : Obj) (rid : String) (argoName objectName fk : JVal)
        (arts : List JVal),
      presign objectName = .error () →
      truthy argoName = true →
      Argo.get_output_artifacts gw (pyStr argoName) = .ok arts →
      Api.extract_result_key arts = some fk →
      jvalBeq fk objectName = false →
      Api.presignWithFallback gw presign now disk rid argoName objectName =
        (match presign fk with
         | .ok url => (.ok (rid, url),
             (Entries.update_run_entry disk now rid [("result_object", fk)]).2.1,
             [objectName, fk])
         | .error _ => (.error (.httpExc 404 "Result not available"),
             (Entries.update_run_entry disk now rid [("result_object", fk)]).2.1,
             [objectName, fk]))) ∧
    (∀ (gw : String → Except Unit (Option Obj)) (presign : JVal → Except Unit String)
        (now : String) (disk : Obj) (rid : String) (argoName objectName fk : JVal)
        (arts : List JVal),
      presign objectName = .error () →
      truthy argoName = true →
      Argo.get_output_artifacts gw (pyStr argoName) = .ok arts →
      Api.extract_result_key arts = some fk →
      jvalBeq fk objectName = true →
      Api.presignWithFallback gw presign now disk rid argoName objectName =
        (.error (.httpExc 404 "Result not available"), disk, [objectName])) ∧
    (∀ (gw : String → Except Unit (Option Obj)) (presign : JVal → Except Unit String)
        (now : String) (disk : Obj) (rid : String) (argoName objectName : JVal),
      presign objectName = .error () →
      truthy argoName = false →
      Api.presignWithFallback gw presign now disk rid argoName objectName =
        (.error (.httpExc 404 "Result not available"), disk, [objectName])) := by
  refine ⟨?_, ?_, ?_⟩
  · intro gw presign now disk rid argoName objectName fk arts hp ha hart hx hne
    unfold Api.presignWithFallback
    rw [hp, if_pos ha, hart]
    dsimp only
    rw [hx]
    simp only [extract_result_key_truthy hx, hne, Bool.not_false, Bool.and_true, if_true]
  · intro gw presign now disk rid argoName objectName fk arts hp ha hart hx heq
    unfold Api.presignWithFallback
    rw [hp, if_pos ha, hart]
    dsimp only
    rw [hx]
    simp only [extract_result_key_truthy hx, heq, Bool.not_true, Bool.and_false,
      Bool.false_eq_true, if_false]
  · intro gw presign now disk rid argoName objectName hp ha
    unfold Api.presignWithFallback
    rw [hp, if_neg (by simp [ha])]

/-- Witness for C2: the stored key fails to presign, the document
re-resolves to a different key, and the handler persists it and returns
the retried URL. -/
theorem claim_C2_witness :
    Api.presignWithFallback
      (fun _ => .ok (some
        [("status", JVal.obj [("outputs", JVal.obj [("artifacts", JVal.arr
          [JVal.obj [("s3", JVal.obj [("key", JVal.str "output/new.csv")])]])])])]))
      (fun k => if jvalBeq k (JVal.str "output/new.csv") = true then .ok "http://dl"
        else .error ())
      "2024-03-01T00:00:00"
      [("runs", JVal.obj [("r1", JVal.obj
        [("run_id", JVal.str "r1"),
         ("result_object", JVal.str "output/old.csv")])])]
      "r1" (JVal.str "wf") (JVal.str "output/old.csv") =
      (.ok ("r1", "http://dl"),
       (Entries.update_run_entry
         [("runs", JVal.obj [("r1", JVal.obj
           [("run_id", JVal.str "r1"),
            ("result_object", JVal.str "output/old.csv")])])]
         "2024-03-01T00:00:00" "r1"
         [("result_object", JVal.str "output/new.csv")]).2.1,
       [JVal.str "output/old.csv", JVal.str "output/new.csv"]) :=
  claim_C2_result_fallback.1
    (fun _ => .ok (some
      [("status", JVal.obj [("outputs", JVal.obj [("artifacts", JVal.arr
        [JVal.obj [("s3", JVal.obj [("key", JVal.str "output/new.csv")])]])])])]))
    (fun k => if jvalBeq k (JVal.str "output/new.csv") = true then .ok "http://dl"
      else .error ())
    "2024-03-01T00:00:00"
    [("runs", JVal.obj [("r1", JVal.obj
      [("run_id", JVal.str "r1"),
       ("result_object", JVal.str "output/old.csv")])])]
    "r1" (JVal.str "wf") (JVal.str "output/old.csv") (JVal.str "output/new.csv")
    [JVal.obj [("s3", JVal.obj [("key", JVal.str "output/new.csv")])]]
    rfl rfl rfl rfl rfl

/-! ## Claim C9 -/

/-- C9 counterexample: the engine reports phase `Failed` — a member of the
claim's terminal set — and presigning would succeed, yet the endpoint
fails with 409 "Run is not complete yet": the code's allowed set is
`{succeeded, skipped, completed}`. -/
theorem claim_C9_counterexample :
    (Api.api_get_run_result
      (fun _ => .ok (some [("status", JVal.obj [("phase", JVal.str "Failed")])]))
      (fun _ => .ok "http://dl") "2024-03-01T00:00:00"
      [("runs", JVal.obj [("r1", JVal.obj
        [("run_id", JVal.str "r1"), ("argo_name", JVal.str "wf"),
         ("result_object", JVal.str "output/a.csv"),
         ("status", JVal.obj [("phase", JVal.str "Failed")])])])]
      "r1").1 = .error (.httpExc 409 "Run is not complete yet") :=
  rfl

/-- Any error the status gate produces is the 409 conflict. -/
theorem resultStatusGate_error {gw : String → Except Unit (Option Obj)} {now : String}
    {disk : Obj} {rid : String} {r : Obj} {e : Api.ApiError}
    (h : (Api.resultStatusGate gw now disk rid r).2 = some e) :
    e = .httpExc 409 "Run is not complete yet" := by
  unfold Api.resultStatusGate at h
  by_cases ha : truthy ((dictGet r "argo_name").getD JVal.null) = true
  · rw [if_neg (by simp [ha])] at h
    cases hst : Argo.get_workflow_status gw (pyStr ((dictGet r "argo_name").getD JVal.null)) with
    | error e2 => rw [hst] at h; simp at h
    | ok w =>
        rw [hst] at h
        cases w with
        | none => simp at h
        | some st =>
            dsimp only at h
            by_cases hts : truthy (JVal.obj st) = true
            · rw [if_pos hts] at h
              by_cases hc : (lowerStr (dictGet st "phase") != "" &&
                  !(["succeeded", "skipped", "completed"].contains
                    (lowerStr (dictGet st "phase")))) = true
              · rw [if_pos hc] at h
                exact (Option.some_injective _ h).symm
              · rw [if_neg hc] at h
                simp at h
            · rw [if_neg hts] at h
              simp at h
  · rw [if_pos (by simp [Bool.not_eq_true] at ha; simp [ha])] at h
    simp at h

/-- The status gate raises exactly when the run has a truthy engine name
and the engine query succeeds with a truthy status whose lowercased phase
is non-empty and outside the allowed set. -/
theorem resultStatusGate_isSome_iff (gw : String → Except Unit (Option Obj)) (now : String)
    (disk : Obj) (rid : String) (r : Obj) :
    (Api.resultStatusGate gw now disk rid r).2.isSome = true ↔
      (truthy ((dictGet r "argo_name").getD JVal.null) = true ∧
       ∃ st, Argo.get_workflow_status gw (pyStr ((dictGet r "argo_name").getD JVal.null)) =
          .ok (some st) ∧ truthy (.obj st) = true ∧
          lowerStr (dictGet st "phase") ≠ "" ∧
          (["succeeded", "skipped", "completed"].contains (lowerStr (dictGet st "phase")))
            = false) := by
  unfold Api.resultStatusGate
  by_cases ha : truthy ((dictGet r "argo_name").getD JVal.null) = true
  · rw [if_neg (by simp [ha])]
    cases hst : Argo.get_workflow_status gw (pyStr ((dictGet r "argo_name").getD JVal.null)) with
    | error e2 =>
        simp only [Option.isSome_none, Bool.false_eq_true, false_iff, not_and]
        intro _
        rintro ⟨st, hst2, -⟩
        cases hst2
    | ok w =>
        cases w with
        | none =>
            simp only [Option.isSome_none, Bool.false_eq_true, false_iff, not_and]
            intro _
            rintro ⟨st, hst2, -⟩
            cases hst2
        | some st =>
            dsimp only
            by_cases hts : truthy (JVal.obj st) = true
            · rw [if_pos hts]
              by_cases hc : (lowerStr (dictGet st "phase") != "" &&
                  !(["succeeded", "skipped", "completed"].contains
                    (lowerStr (dictGet st "phase")))) = true
              · rw [if_pos hc]
                simp only [Option.isSome_some, true_iff]
                rcases Bool.and_eq_true_iff.1 hc with ⟨h1, h2⟩
                exact ⟨ha, st, rfl, hts, bne_iff_ne.1 h1, by simpa using h2⟩
              · rw [if_neg hc]
                simp only [Option.isSome_none, Bool.false_eq_true, false_iff, not_and]
                intro _
                rintro ⟨st', hst2, hts', hph, hcon⟩
                injection hst2 with hst2
                injection hst2 with hst2
                subst hst2
                apply hc
                rw [Bool.and_eq_true_iff]
                exact ⟨bne_iff_ne.2 hph, by rw [Bool.not_eq_true']; exact hcon⟩
            · rw [if_neg hts]
              simp only [Option.isSome_none, Bool.false_eq_true, false_iff, not_and]
              intro _
              rintro ⟨st', hst2, hts', -⟩
              injection hst2 with hst2
              injection hst2 with hst2
              subst hst2
              exact hts hts'
  · rw [if_pos (by simp [Bool.not_eq_true] at ha; simp [ha])]
    simp only [Option.isSome_none, Bool.false_eq_true, false_iff, not_and]
    intro ha2
    exact absurd ha2 ha

/-- Any error of the key-resolution step propagates an uncaught exception,
never an HTTP error. -/
theorem resolveObjectName_error {gw : String → Except Unit (Option Obj)} {now : String}
    {disk : Obj} {rid : String} {r : Obj} {e : Api.ApiError}
    (h : Api.resolveObjectName gw now disk rid r = .error e) : e = .uncaught := by
  unfold Api.resolveObjectName at h
  by_cases hc : (!truthy ((dictGet r "result_object").getD JVal.null) &&
      truthy ((dictGet r "argo_name").getD JVal.null)) = true
  · rw [if_pos hc] at h
    cases ha : Argo.get_output_artifacts gw (pyStr ((dictGet r "argo_name").getD JVal.null)) with
    | error e2 =>
        simp only [ha] at h
        injection h with h
        exact h.symm
    | ok arts =>
        simp only [ha] at h
        cases hk : Api.extract_result_key arts with
        | some k =>
            simp only [hk] at h
            exact Except.noConfusion h
        | none =>
            simp only [hk] at h
            exact Except.noConfusion h
  · rw [if_neg hc] at h
    exact Except.noConfusion h

/-- The presign-with-fallback step never fails with the 409 conflict. -/
theorem presignWithFallback_ne_conflict (gw : String → Except Unit (Option Obj))
    (presign : JVal → Except Unit String) (now : String) (disk : Obj) (rid : String)
    (argoName : JVal) (objectName : JVal) :
    (Api.presignWithFallback gw presign now disk rid argoName objectName).1 ≠
      Except.error (Api.ApiError.httpExc 409 "Run is not complete yet") := by
  unfold Api.presignWithFallback
  cases hp : presign objectName with
  | ok url => simp
  | error e =>
      dsimp only
      by_cases ha : truthy argoName = true
      · rw [if_pos ha]
        cases Argo.get_output_artifacts gw (pyStr argoName) with
        | error e2 => simp
        | ok arts =>
            dsimp only
            cases Api.extract_result_key arts with
            | none => simp
            | some fk =>
                dsimp only
                by_cases hc : (truthy fk && !jvalBeq fk objectName) = true
                · rw [if_pos hc]
                  cases presign fk with
                  | ok url => simp
                  | error e3 => simp
                · rw [if_neg hc]
                  simp
      · rw [if_neg ha]
        simp

theorem error_httpExc_ne {s1 s2 : Nat} {d1 d2 : String} (h : s1 ≠ s2) :
    (Except.error (Api.ApiError.httpExc s1 d1) : Except Api.ApiError (String × String)) ≠
      Except.error (.httpExc s2 d2) := by
  intro he
  injection he with he
  injection he with he1 he2
  exact h he1

theorem error_uncaught_ne_conflict :
    (Except.error Api.ApiError.uncaught : Except Api.ApiError (String × String)) ≠
      Except.error (.httpExc 409 "Run is not complete yet") := by
  intro he
  injection he with he
  exact Api.ApiError.noConfusion he

/-- C9 (amended): the fetch-result operation fails with 409 "Run is not
complete yet" exactly when the stored record is found and truthy, has a
truthy engine name, and a fresh engine status query succeeds with a
truthy status whose lowercased phase is non-empty and outside the allowed
set `{succeeded, skipped, completed}` — so `Failed` and `Error` phases
are rejected, not treated as terminal, and a missing or unreachable
engine status skips the gate entirely. -/
theorem claim_C9_run_not_complete (gw : String → Except Unit (Option Obj))
    (presign : JVal → Except Unit String) (now : String) (data : Obj) (rid : String) :
    (Api.api_get_run_result gw presign now data rid).1 =
        .error (.httpExc 409 "Run is not complete yet") ↔
      ∃ r, (Entries.get_run data rid).1 = some (.obj r) ∧ truthy (.obj r) = true ∧
        truthy ((dictGet r "argo_name").getD JVal.null) = true ∧
        ∃ st, Argo.get_workflow_status gw (pyStr ((dictGet r "argo_name").getD JVal.null)) =
            .ok (some st) ∧ truthy (.obj st) = true ∧
          lowerStr (dictGet st "phase") ≠ "" ∧
          (["succeeded", "skipped", "completed"].contains (lowerStr (dictGet st "phase")))
            = false := by
  simp only [Api.api_get_run_result]
  cases hg : (Entries.get_run data rid).1 with
  | none =>
      constructor
      · intro h
        exact absurd h (error_httpExc_ne (by decide))
      · rintro ⟨r, hr, -⟩
        exact Option.noConfusion hr
  | some run =>
      dsimp only
      by_cases htr : truthy run = true
      · rw [if_neg (by simp [htr])]
        cases run with
        | null =>
            constructor
            · intro h
              exact absurd h error_uncaught_ne_conflict
            · rintro ⟨r, hr, -⟩
              exact JVal.noConfusion (Option.some.inj hr)
        | bool b =>
            constructor
            · intro h
              exact absurd h error_uncaught_ne_conflict
            · rintro ⟨r, hr, -⟩
              exact JVal.noConfusion (Option.some.inj hr)
        | num n =>
            constructor
            · intro h
              exact absurd h error_uncaught_ne_conflict
            · rintro ⟨r, hr, -⟩
              exact JVal.noConfusion (Option.some.inj hr)
        | str s =>
            constructor
            · intro h
              exact absurd h error_uncaught_ne_conflict
            · rintro ⟨r, hr, -⟩
              exact JVal.noConfusion (Option.some.inj hr)
        | arr xs =>
            constructor
            · intro h
              exact absurd h error_uncaught_ne_conflict
            · rintro ⟨r, hr, -⟩
              exact JVal.noConfusion (Option.some.inj hr)
        | obj r0 =>
            dsimp only
            cases hgate : (Api.resultStatusGate gw now (Entries.get_run data rid).2.1 rid r0).2 with
            | some e =>
                dsimp only
                constructor
                · intro _
                  have hs : (Api.resultStatusGate gw now
                      (Entries.get_run data rid).2.1 rid r0).2.isSome = true := by
                    rw [hgate]
                    rfl
                  rcases (resultStatusGate_isSome_iff gw now
                      (Entries.get_run data rid).2.1 rid r0).1 hs with
                    ⟨ha, st, hst, hts, hph, hcon⟩
                  exact ⟨r0, rfl, htr, ha, st, hst, hts, hph, hcon⟩
                · intro _
                  rw [resultStatusGate_error hgate]
            | none =>
                dsimp only
                have hns : ¬ (Api.resultStatusGate gw now
                    (Entries.get_run data rid).2.1 rid r0).2.isSome = true := by
                  rw [hgate]
                  simp
                constructor
                · cases hro : Api.resolveObjectName gw now
                      (Api.resultStatusGate gw now (Entries.get_run data rid).2.1 rid r0).1
                      rid r0 with
                  | error e2 =>
                      intro h
                      have he := resolveObjectName_error hro
                      subst he
                      exact absurd h error_uncaught_ne_conflict
                  | ok p =>
                      obtain ⟨objectName, d3⟩ := p
                      dsimp only
                      by_cases hob : truthy objectName = true
                      · rw [if_neg (by simp [hob])]
                        intro h
                        exact absurd h (presignWithFallback_ne_conflict gw presign now d3 rid
                          ((dictGet r0 "argo_name").getD JVal.null) objectName)
                      · rw [if_pos (by simp only [Bool.not_eq_true] at hob; simp [hob])]
                        intro h
                        exact absurd h (error_httpExc_ne (by decide))
                · rintro ⟨r, hr, htr2, ha, st, hst, hts, hph, hcon⟩
                  have hr' := Option.some.inj hr
                  injection hr' with hr'
                  subst hr'
                  exact absurd ((resultStatusGate_isSome_iff gw now
                    (Entries.get_run data rid).2.1 rid r0).2 ⟨ha, st, hst, hts, hph, hcon⟩) hns
      · rw [if_pos (by simp only [Bool.not_eq_true] at htr; simp [htr])]
        constructor
        · intro h
          exact absurd h (error_httpExc_ne (by decide))
        · rintro ⟨r, hr, htr2, -⟩
          have hr' := Option.some.inj hr
          subst hr'
          exact absurd htr2 htr

/-- C9 witness: at the concrete registry and engine of the counterexample
the characterization is inhabited — the gate conditions hold and the 409
is raised. -/
theorem claim_C9_witness :
    ∃ r, (Entries.get_run
        [("runs", JVal.obj [("r1", JVal.obj
          [("run_id", JVal.str "r1"), ("argo_name", JVal.str "wf"),
           ("result_object", JVal.str "output/a.csv"),
           ("status", JVal.obj [("phase", JVal.str "Failed")])])])]
        "r1").1 = some (.obj r) ∧ truthy (.obj r) = true ∧
      truthy ((dictGet r "argo_name").getD JVal.null) = true ∧
      ∃ st, Argo.get_workflow_status
          (fun _ => .ok (some [("status", JVal.obj [("phase", JVal.str "Failed")])]))
          (pyStr ((dictGet r "argo_name").getD JVal.null)) =
          .ok (some st) ∧ truthy (.obj st) = true ∧
        lowerStr (dictGet st "phase") ≠ "" ∧
        (["succeeded", "skipped", "completed"].contains (lowerStr (dictGet st "phase")))
          = false :=
  (claim_C9_run_not_complete
    (fun _ => .ok (some [("status", JVal.obj [("phase", JVal.str "Failed")])]))
    (fun _ => .ok "http://dl") "2024-03-01T00:00:00"
    [("runs", JVal.obj [("r1", JVal.obj
      [("run_id", JVal.str "r1"), ("argo_name", JVal.str "wf"),
       ("result_object", JVal.str "output/a.csv"),
       ("status", JVal.obj [("phase", JVal.str "Failed")])])])]
    "r1").1 rfl
